import Mathlib

/-!
# ProjectParking: the parking-spot state machine

A shallow embedding of `src/ProjectParking/ProjectParking.cpp`, and of
`Renderer::drawParkingSpotTimer` and `Renderer::measureTextWidth` of
`src/ProjectParking/Rendering.cpp`.

* `float` and `double` values are rationals (`ℚ`): arithmetic is taken exactly.
* The global `std::vector<ParkingSpot> parkingSpots(ROWS * COLUMNS)` is a function on
  `Fin (ROWS * COLUMNS)`; the vector is never resized.
* The hidden state of the C random number generator is the stream of values that
  `rand()` is still going to return, each of them in `[0, RAND_MAX]`.
* Calls into the sound engine and the line printed on `std::cout` are returned as lists of
  events next to the new state.  Draw calls are left out.
* `glfwGetTime` and `glfwGetCursorPos` are inputs: `update` takes `deltaTime`, the mouse
  callback takes the cursor position.
* A vertex on the circle of the timer is kept as the index of its angle, since its
  coordinates are a cosine and a sine; a conversion of `float` to `int` drops the fraction.
-/

namespace ProjectParking

/-! ## Constants -/

/-- Source: `const int ROWS = 2;`. -/
abbrev ROWS : Nat := 2

/-- Source: `const int COLUMNS = 3;`. -/
abbrev COLUMNS : Nat := 3

/-- GLFW header value `GLFW_MOD_SHIFT 0x0001`. -/
def GLFW_MOD_SHIFT : Int := 1

/-- GLFW header value `GLFW_MOD_CONTROL 0x0002`. -/
def GLFW_MOD_CONTROL : Int := 2

/-- GLFW header value `GLFW_MOUSE_BUTTON_LEFT` (button 1, numbered 0). -/
def GLFW_MOUSE_BUTTON_LEFT : Int := 0

/-- GLFW header value `GLFW_PRESS 1`. -/
def GLFW_PRESS : Int := 1

/-- C library constant; 32767 is the value of the MSVC runtime the program is written for
(it calls `localtime_s`).  The proofs only use that it is positive. -/
abbrev RAND_MAX : Nat := 32767

/-- Source: `float parkingSpotDistance = 60.0f;`. -/
def parkingSpotDistance : ℚ := 60

/-- Source: `float additionalHorizontalSpacing = 100.0f;`. -/
def additionalHorizontalSpacing : ℚ := 100

/-- Source: `const float titleTransitionDuration = 3.0f;`. -/
def titleTransitionDuration : ℚ := 3

/-! ## Data model -/

/-- Source: `struct ParkingSpot`, with its default member initialisers. -/
structure ParkingSpot where
  occupied : Bool := false
  blinking : Bool := false
  blinkColor : ℚ × ℚ × ℚ := (1, 0, 1)
  blinkTimer : ℚ := 0
  timer : ℚ := 0
  timerSound : Bool := true
  redProgress : ℚ := 0
  carColor : ℚ × ℚ × ℚ × ℚ := (1, 1, 1, 1)
  driverName : String := ""
  licensePlate : String := ""
  showInfo : Bool := false
deriving DecidableEq

/-- The values `rand()` is going to return, in order; each lies in `[0, RAND_MAX]`. -/
abbrev RandStream : Type := Nat → Fin (RAND_MAX + 1)

/-- One call of `rand()`: the value returned and the generator state afterwards. -/
def rand (g : RandStream) : Nat × RandStream :=
  ((g 0).val, fun n => g (n + 1))

/-- The sound sources handed to `soundEngine->play2D`. -/
inductive SoundCue where
  | parkingSound
  | leavingSound
  | indicatorSound
deriving DecidableEq

/-- The line `update` prints when a parking time expires: the spot label and the licence
plate.  The wall-clock time printed in between is not part of the model. -/
structure AuditRecord where
  spotName : String
  licensePlate : String
deriving DecidableEq

/-- The global variables of `ProjectParking.cpp` that the callbacks and `update` read or
write. -/
structure World where
  WIDTH : Int
  HEIGHT : Int
  CELL_WIDTH : ℚ
  CELL_HEIGHT : ℚ
  parkingSpots : Fin (ROWS * COLUMNS) → ParkingSpot
  displayParking : Bool
  titleTextColor : ℚ × ℚ × ℚ
  targetTitleTextColor : ℚ × ℚ × ℚ
  titleTextTransitionProgress : ℚ
  reverseTransition : Bool
  randState : RandStream

/-- The globals as initialised at program start; `g` is the generator state after
`srand(time(0))`. -/
def initialWorld (g : RandStream) : World where
  WIDTH := 1400
  HEIGHT := 800
  CELL_WIDTH := (1400 : ℚ) / (11 / 2)
  CELL_HEIGHT := (1400 : ℚ) / (11 / 2) * (7 / 5)
  parkingSpots := fun _ => {}
  displayParking := true
  titleTextColor := (1, 1, 1)
  targetTitleTextColor := (1, 0, 0)
  titleTextTransitionProgress := 0
  reverseTransition := false
  randState := g

/-! ## Random identities -/

/-- The loop `licensePlate += static_cast<char>(rand() % 26 + 'A')`, run `n` times. -/
def appendLetters : Nat → String → RandStream → String × RandStream
  | 0, licensePlate, g => (licensePlate, g)
  | n + 1, licensePlate, g =>
    let r := rand g
    appendLetters n (licensePlate.push (Char.ofNat (r.1 % 26 + 'A'.toNat))) r.2

/-- The loop `licensePlate += std::to_string(rand() % 10)`, run `n` times. -/
def appendDigits : Nat → String → RandStream → String × RandStream
  | 0, licensePlate, g => (licensePlate, g)
  | n + 1, licensePlate, g =>
    let r := rand g
    appendDigits n (licensePlate ++ toString (r.1 % 10)) r.2

/-- Source: `generateLicensePlate`. -/
def generateLicensePlate (g : RandStream) : String × RandStream :=
  let licensePlate := ""
  let a := appendLetters 2 licensePlate g
  let licensePlate := a.1 ++ " "
  let b := appendDigits 3 licensePlate a.2
  let licensePlate := b.1 ++ "-"
  appendLetters 2 licensePlate b.2

/-- Source: the vector `names` of `generateDriverName`. -/
def names : List String :=
  ["John", "Jane", "Alice", "Bob", "Charlie", "David", "Eve", "Frank", "Grace", "Hank",
    "Jack", "Kate"]

/-- Source: the vector `surnames` of `generateDriverName`. -/
def surnames : List String :=
  ["Smith", "Johnson", "Williams", "Jones", "Brown", "Davis", "Miller", "Wilson", "Moore",
    "Taylor", "Anderson", "Thomas", "Jackson", "White", "Martin", "Thompson", "Garcia",
    "Martinez", "Robinson", "Clark", "Rodriguez", "Lewis", "Lee", "Walker", "Hall", "Allen"]

/-- Source: `generateDriverName`.  The two calls of `rand()` are taken left to right; the
indices are reduced modulo the sizes, so the default of `getD` is never used. -/
def generateDriverName (g : RandStream) : String × RandStream :=
  let r1 := rand g
  let r2 := rand r1.2
  (names.getD (r1.1 % names.length) "" ++ " " ++ surnames.getD (r2.1 % surnames.length) "",
    r2.2)

/-! ## Keyboard transitions -/

/-- Source: `int index = row * COLUMNS + col;`. -/
def spotIndex (row : Fin ROWS) (col : Fin COLUMNS) : Fin (ROWS * COLUMNS) :=
  ⟨row.val * COLUMNS + col.val, by
    have h1 : row.val < 2 := row.isLt
    have h2 : col.val < 3 := col.isLt
    show row.val * 3 + col.val < 2 * 3
    omega⟩

/-- The body of `handleParkingSpotEvent`, as a function of the spot `parkingSpots[index]`
refers to and of the generator state. -/
def handleSpot (mods : Int) (g : RandStream) (spot : ParkingSpot) :
    ParkingSpot × RandStream × List SoundCue :=
  if spot.occupied = false ∧ mods ≠ GLFW_MOD_CONTROL then
    let plate := generateLicensePlate g
    let name := generateDriverName plate.2
    let c0 := rand name.2
    let c1 := rand c0.2
    let c2 := rand c1.2
    ({ spot with
        occupied := true
        timer := 20
        timerSound := true
        redProgress := 0
        licensePlate := plate.1
        driverName := name.1
        carColor := ((c0.1 : ℚ) / RAND_MAX, (c1.1 : ℚ) / RAND_MAX, (c2.1 : ℚ) / RAND_MAX,
          spot.carColor.2.2.2) },
      c2.2, [SoundCue.parkingSound])
  else if spot.occupied = true ∧ mods = GLFW_MOD_SHIFT then
    ({ spot with timer := 20, redProgress := 0 }, g, [])
  else if spot.occupied = true ∧ mods = GLFW_MOD_CONTROL then
    ({ spot with
        occupied := false
        timer := 0
        timerSound := true
        redProgress := 0
        blinking := false
        licensePlate := ""
        showInfo := false },
      g, [SoundCue.leavingSound])
  else
    (spot, g, [])

/-- Source: `handleParkingSpotEvent`.  `keyCallback` calls it with `row` 0 or 1 and `col`
0, 1 or 2 only. -/
def handleParkingSpotEvent (row : Fin ROWS) (col : Fin COLUMNS) (mods : Int) (w : World) :
    World × List SoundCue :=
  let index := spotIndex row col
  let r := handleSpot mods w.randState (w.parkingSpots index)
  ({ w with parkingSpots := Function.update w.parkingSpots index r.1, randState := r.2.1 },
    r.2.2)

/-! ## Grid geometry and the mouse callback -/

/-- Source: `horizontalOffset` of `mouseButtonCallback` and `render`. -/
def horizontalOffset (w : World) : ℚ :=
  let totalParkingWidth :=
    (COLUMNS : ℚ) * (w.CELL_WIDTH + additionalHorizontalSpacing) - additionalHorizontalSpacing
  ((w.WIDTH : ℚ) - totalParkingWidth) / 2

/-- Source: `verticalOffset` of `mouseButtonCallback` and `render`. -/
def verticalOffset (w : World) : ℚ :=
  let totalParkingHeight := (ROWS : ℚ) * w.CELL_HEIGHT
  ((w.HEIGHT : ℚ) - totalParkingHeight) / 2

/-- Source: the local `x` of the loop body. -/
def spotX (w : World) (col : Fin COLUMNS) : ℚ :=
  (col.val : ℚ) * (w.CELL_WIDTH + additionalHorizontalSpacing) + horizontalOffset w
    + parkingSpotDistance / 2

/-- Source: the local `y` of the loop body; `(745 - HEIGHT) / 2` is an `int` division,
which truncates. -/
def spotY (w : World) (row : Fin ROWS) : ℚ :=
  let y := (((ROWS : Int) - 1 - (row.val : Int) : Int) : ℚ) * w.CELL_HEIGHT + verticalOffset w
  if w.HEIGHT < 750 then y - (((745 - w.HEIGHT).tdiv 2 : Int) : ℚ) else y

/-- The body of the loop of `mouseButtonCallback` for one spot: `xpos`, `ypos` is the
click in OpenGL coordinates, `x`, `y` the corner of the spot. -/
def clickSpot (xpos ypos x y cellWidth cellHeight : ℚ) (spot : ParkingSpot) :
    ParkingSpot × List SoundCue :=
  let indicatorX := x - parkingSpotDistance + 10
  let indicatorY := y + cellHeight / 2 - 35
  let radius : ℚ := 37
  if spot.blinking = true ∧
      (xpos - indicatorX) ^ 2 + (ypos - indicatorY) ^ 2 ≤ radius ^ 2 then
    ({ spot with
        occupied := false
        blinking := false
        timer := 0
        timerSound := true
        redProgress := 0
        licensePlate := ""
        showInfo := false },
      [SoundCue.leavingSound])
  else if spot.occupied = true ∧
      (xpos ≥ x + 20 ∧ xpos ≤ x + (cellWidth - parkingSpotDistance) - 40) ∧
      (ypos ≥ y + 20 ∧ ypos ≤ y + (cellHeight - parkingSpotDistance) - 40) then
    ({ spot with showInfo := !spot.showInfo }, [])
  else
    (spot, [])

/-- The loops `for row < ROWS`, `for col < COLUMNS` over the grid: `body row col` is run
on the spot `parkingSpots[row * COLUMNS + col]` and its events are appended. -/
def forEachSpot {ε : Type} (body : Fin ROWS → Fin COLUMNS → ParkingSpot → ParkingSpot × List ε)
    (spots : Fin (ROWS * COLUMNS) → ParkingSpot) :
    (Fin (ROWS * COLUMNS) → ParkingSpot) × List ε :=
  (List.finRange ROWS).foldl
    (fun acc row =>
      (List.finRange COLUMNS).foldl
        (fun acc col =>
          let index := spotIndex row col
          let r := body row col (acc.1 index)
          (Function.update acc.1 index r.1, acc.2 ++ r.2))
        acc)
    (spots, [])

/-- Source: `mouseButtonCallback`; `xpos`, `ypos` is what `glfwGetCursorPos` returns. -/
def mouseButtonCallback (button action : Int) (xpos ypos : ℚ) (w : World) :
    World × List SoundCue :=
  if button = GLFW_MOUSE_BUTTON_LEFT ∧ action = GLFW_PRESS then
    let ypos := (w.HEIGHT : ℚ) - ypos
    let r := forEachSpot
      (fun row col spot =>
        clickSpot xpos ypos (spotX w col) (spotY w row) w.CELL_WIDTH w.CELL_HEIGHT spot)
      w.parkingSpots
    ({ w with parkingSpots := r.1 }, r.2)
  else
    (w, [])

/-- Source: `framebufferSizeCallback`.  The projection matrix belongs to the renderer. -/
def framebufferSizeCallback (width height : Int) (w : World) : World :=
  { w with WIDTH := width, HEIGHT := height }

/-! ## Rendering: the part that writes to the spots -/

/-- The only write of `render` to a spot: the indicator sound is played once. -/
def renderSpot (spot : ParkingSpot) : ParkingSpot × List SoundCue :=
  if spot.blinking = true then
    if spot.timerSound = true then
      ({ spot with timerSound := false }, [SoundCue.indicatorSound])
    else
      (spot, [])
  else
    (spot, [])

/-- Source: `render`, reduced to its effect on the globals and the sounds it plays. -/
def render (w : World) : World × List SoundCue :=
  let r := forEachSpot (fun _ _ spot => renderSpot spot) w.parkingSpots
  ({ w with parkingSpots := r.1 }, r.2)

/-! ## The update tick -/

/-- Source: `(i < 3 ? "A" : "B") + std::to_string(i % 3 + 1)`. -/
def spotName (i : Nat) : String :=
  (if i < 3 then "A" else "B") ++ toString (i % 3 + 1)

/-- The body of the first loop of `update` for the spot `parkingSpots[i]`. -/
def updateSpot (i : Nat) (deltaTime : ℚ) (spot : ParkingSpot) :
    ParkingSpot × List AuditRecord :=
  let r : ParkingSpot × List AuditRecord :=
    if spot.occupied = true then
      let spot := { spot with timer := spot.timer - deltaTime }
      let e : ParkingSpot × List AuditRecord :=
        if spot.timer ≤ 0 then
          let spot := { spot with timer := 0 }
          let out : List AuditRecord :=
            if spot.blinking = false then
              [{ spotName := spotName i, licensePlate := spot.licensePlate }]
            else []
          ({ spot with blinking := true }, out)
        else
          (spot, [])
      ({ e.1 with redProgress := 1 - e.1.timer / 20 }, e.2)
    else
      ({ spot with redProgress := 0, blinking := false }, [])
  let spot := r.1
  let spot :=
    if spot.blinking = true then
      let spot := { spot with blinkTimer := spot.blinkTimer + deltaTime }
      if spot.blinkTimer ≥ 1 / 2 then
        { spot with
            blinkColor := (spot.blinkColor.1, spot.blinkColor.2.1,
              if spot.blinkColor.2.2 = 1 then 0 else 1)
            blinkTimer := 0 }
      else spot
    else spot
  (spot, r.2)

/-- The loop `for (int i = 0; i < parkingSpots.size(); ++i)` of `update`. -/
def updateSpots (deltaTime : ℚ) (spots : Fin (ROWS * COLUMNS) → ParkingSpot) :
    (Fin (ROWS * COLUMNS) → ParkingSpot) × List AuditRecord :=
  (List.finRange (ROWS * COLUMNS)).foldl
    (fun acc i =>
      let r := updateSpot i.val deltaTime (acc.1 i)
      (Function.update acc.1 i r.1, acc.2 ++ r.2))
    (spots, [])

/-- The title animation of `update`, after the loop over the spots. -/
def updateTitle (deltaTime : ℚ) (w : World) : World :=
  let progress :=
    if w.reverseTransition = true then
      w.titleTextTransitionProgress - deltaTime / titleTransitionDuration
    else
      w.titleTextTransitionProgress + deltaTime / titleTransitionDuration
  let w := { w with titleTextTransitionProgress := progress }
  let w :=
    if w.titleTextTransitionProgress ≥ 1 then
      { w with titleTextTransitionProgress := 1, reverseTransition := true }
    else if w.titleTextTransitionProgress ≤ 0 then
      let c0 := rand w.randState
      let c1 := rand c0.2
      let c2 := rand c1.2
      { w with
          titleTextTransitionProgress := 0
          reverseTransition := false
          displayParking := !w.displayParking
          targetTitleTextColor :=
            (1 / 4 + (c0.1 : ℚ) / ((RAND_MAX : ℚ) / (3 / 4)),
              1 / 4 + (c1.1 : ℚ) / ((RAND_MAX : ℚ) / (3 / 4)),
              1 / 4 + (c2.1 : ℚ) / ((RAND_MAX : ℚ) / (3 / 4)))
          randState := c2.2 }
    else w
  { w with
      titleTextColor :=
        (w.titleTextColor.1 + (w.targetTitleTextColor.1 - w.titleTextColor.1) * deltaTime * 2,
          w.titleTextColor.2.1
            + (w.targetTitleTextColor.2.1 - w.titleTextColor.2.1) * deltaTime * 2,
          w.titleTextColor.2.2
            + (w.targetTitleTextColor.2.2 - w.titleTextColor.2.2) * deltaTime * 2) }

/-- Source: `update`, with `deltaTime = currentTime - lastTime` as an input. -/
def update (deltaTime : ℚ) (w : World) : World × List AuditRecord :=
  let r := updateSpots deltaTime w.parkingSpots
  (updateTitle deltaTime { w with parkingSpots := r.1 }, r.2)

/-! ## Executions -/

/-- What the program reacts to: a key event that resolves to a spot, a mouse button event
with the cursor position, a resize of the framebuffer, and the two halves of a frame. -/
inductive Input where
  | key (row : Fin ROWS) (col : Fin COLUMNS) (mods : Int)
  | mouse (button action : Int) (xpos ypos : ℚ)
  | resize (width height : Int)
  | tick (deltaTime : ℚ)
  | draw

/-- Time does not run backwards: `glfwGetTime` is monotone, so `deltaTime` is not negative. -/
def Input.wellTimed : Input → Prop
  | Input.tick deltaTime => 0 ≤ deltaTime
  | _ => True

/-- The reaction of the program to one input: the new globals, the sounds played and the
audit lines printed. -/
def step (i : Input) (w : World) : World × List SoundCue × List AuditRecord :=
  match i with
  | Input.key row col mods =>
    let r := handleParkingSpotEvent row col mods w
    (r.1, r.2, [])
  | Input.mouse button action xpos ypos =>
    let r := mouseButtonCallback button action xpos ypos w
    (r.1, r.2, [])
  | Input.resize width height => (framebufferSizeCallback width height w, [], [])
  | Input.tick deltaTime =>
    let r := update deltaTime w
    (r.1, [], r.2)
  | Input.draw =>
    let r := render w
    (r.1, r.2, [])

/-- The states the program can be in: the initial one, and every state one input later. -/
inductive Reachable : World → Prop where
  | init (g : RandStream) : Reachable (initialWorld g)
  | step (i : Input) (w : World) : i.wellTimed → Reachable w → Reachable (step i w).1

/-- The program run on a list of inputs: final globals and all audit lines, in order. -/
def run : List Input → World → World × List AuditRecord
  | [], w => (w, [])
  | i :: rest, w =>
    let r := step i w
    let q := run rest r.1
    (q.1, r.2.2 ++ q.2)

/-- The audit lines that carry the label of spot `j`. -/
def recordsFor (j : Fin (ROWS * COLUMNS)) (out : List AuditRecord) : List AuditRecord :=
  out.filter (fun r => r.spotName = spotName j.val)

/-- Spot `j` is occupied now and after each of the inputs: no Leave of `j` happens. -/
def staysOccupied (j : Fin (ROWS * COLUMNS)) : List Input → World → Prop
  | [], w => (w.parkingSpots j).occupied = true
  | i :: rest, w => (w.parkingSpots j).occupied = true ∧ staysOccupied j rest (step i w).1

/-- What the ticks of an execution do to spot `j`, one entry per tick in order: the timer
of the spot when `update` returns and the number of audit lines printed for it. -/
def tickTrace (j : Fin (ROWS * COLUMNS)) : List Input → World → List (ℚ × Nat)
  | [], _ => []
  | Input.tick deltaTime :: rest, w =>
    let r := update deltaTime w
    ((r.1.parkingSpots j).timer, (recordsFor j r.2).length) :: tickTrace j rest r.1
  | i :: rest, w => tickTrace j rest (step i w).1

/-- One pass of a loop whose body at `p` rewrites the slot `idx p` and appends its events. -/
def loopStep {ι α β : Type} {n : Nat} (idx : ι → Fin n) (f : ι → α → α × List β)
    (acc : (Fin n → α) × List β) (p : ι) : (Fin n → α) × List β :=
  (Function.update acc.1 (idx p) (f p (acc.1 (idx p))).1, acc.2 ++ (f p (acc.1 (idx p))).2)

/-- The grid positions in the order the loops `for row`, `for col` visit them. -/
def gridOrder : List (Fin ROWS × Fin COLUMNS) :=
  [(0, 0), (0, 1), (0, 2), (1, 0), (1, 1), (1, 2)]

/-- What holds of every spot in every reachable state. -/
structure SpotInv (s : ParkingSpot) : Prop where
  vacant : s.occupied = false →
    s.timer = 0 ∧ s.blinking = false ∧ s.redProgress = 0 ∧ s.licensePlate = ""
      ∧ s.showInfo = false
  timer_nonneg : 0 ≤ s.timer
  timer_le : s.timer ≤ 20
  progress : s.occupied = true → s.redProgress = 1 - s.timer / 20
  color : (0 ≤ s.carColor.1 ∧ s.carColor.1 ≤ 1) ∧ (0 ≤ s.carColor.2.1 ∧ s.carColor.2.1 ≤ 1)
    ∧ (0 ≤ s.carColor.2.2.1 ∧ s.carColor.2.2.1 ≤ 1)
    ∧ (0 ≤ s.carColor.2.2.2 ∧ s.carColor.2.2.2 ≤ 1)

/-- The generator that always returns 0. -/
def zeroStream : RandStream := fun _ => 0

/-- A trace of ticks in which the audit line is printed by the first tick that leaves the
timer at 0, and by no other tick. -/
def firstExpiryOnly : List (ℚ × Nat) → Prop
  | [] => True
  | x :: rest =>
    if x.1 = 0 then x.2 = 1 ∧ ∀ y ∈ rest, y.2 = 0 else x.2 = 0 ∧ firstExpiryOnly rest

/-! ## Sample executions -/

/-- The initial state when the generator always returns 0. -/
def world0 : World := initialWorld zeroStream

/-- Spot A1 after Park draws zeroes from the generator. -/
def parkedSpot : ParkingSpot :=
  { occupied := true, timer := 20, licensePlate := "AA 000-AA", driverName := "John Smith"
    carColor := (0, 0, 0, 1) }

/-- Keys `A` and `1` without modifier in the initial state: a car parks on A1. -/
def parkedWorld : World := (handleParkingSpotEvent 0 0 0 world0).1

/-- A tick of 20 seconds after the car parked: the time of A1 has expired. -/
def expiredWorld : World := (update 20 parkedWorld).1

/-- Keys `A` and `1` with Control after the car parked: the car leaves A1. -/
def leftWorld : World := (handleParkingSpotEvent 0 0 GLFW_MOD_CONTROL parkedWorld).1

/-- A left click on the centre of the blinking indicator of A1, at window position
`(2180 / 11, 2825 / 11)`, after the time expired: the car leaves A1. -/
def clickedWorld : World :=
  (mouseButtonCallback GLFW_MOUSE_BUTTON_LEFT GLFW_PRESS (2180 / 11) (2825 / 11)
    expiredWorld).1

/-! ## The hit regions of a click -/

/-- The test `pow(xpos - indicatorX, 2) + pow(ypos - indicatorY, 2) <= pow(radius, 2)` of
`mouseButtonCallback` for the spot whose corner is `(x, y)`. -/
def inIndicator (xpos ypos x y cellHeight : ℚ) : Prop :=
  (xpos - (x - parkingSpotDistance + 10)) ^ 2 + (ypos - (y + cellHeight / 2 - 35)) ^ 2
    ≤ (37 : ℚ) ^ 2

/-- The test of `mouseButtonCallback` for a click on the car of the spot whose corner is
`(x, y)`. -/
def inCar (xpos ypos x y cellWidth cellHeight : ℚ) : Prop :=
  (xpos ≥ x + 20 ∧ xpos ≤ x + (cellWidth - parkingSpotDistance) - 40) ∧
  (ypos ≥ y + 20 ∧ ypos ≤ y + (cellHeight - parkingSpotDistance) - 40)

/-- The click at `(xpos, ypos)`, in OpenGL coordinates, lies in the indicator circle or on
the car rectangle of the spot in `row` and `col`. -/
def hitsSpot (w : World) (row : Fin ROWS) (col : Fin COLUMNS) (xpos ypos : ℚ) : Prop :=
  inIndicator xpos ypos (spotX w col) (spotY w row) w.CELL_HEIGHT
    ∨ inCar xpos ypos (spotX w col) (spotY w row) w.CELL_WIDTH w.CELL_HEIGHT

/-- What holds of the blink state of every spot in every reachable state. -/
def BlinkInv (s : ParkingSpot) : Prop :=
  s.blinkTimer < 1 / 2 ∧ (s.blinkColor.2.2 = 0 ∨ s.blinkColor.2.2 = 1)

/-! ## The renderer: the timer arc -/

/-- Where a vertex of the timer lies: at the centre `(cx, cy)`, or on the circle at the
angle `M_PI / 2 + i * angleStep`, that is at `(cx + cos(angle) * r, cy + sin(angle) * r)`.
The angle is kept as its index `i`. -/
inductive Position where
  | centre (cx cy : ℚ)
  | rim (cx cy r : ℚ) (i : Int)
deriving DecidableEq

/-- Source: `struct Vertex` of `Rendering.h`, with the position kept symbolic. -/
structure Vertex where
  pos : Position
  r : ℚ
  g : ℚ
  b : ℚ
  a : ℚ
deriving DecidableEq

/-- A call `glDrawArrays(GL_TRIANGLE_FAN, first, count)`. -/
structure DrawCall where
  first : Int
  count : Int
deriving DecidableEq

/-- Conversion of a `float` to `int`: the fractional part is discarded. -/
def truncate (q : ℚ) : Int :=
  if 0 ≤ q then ⌊q⌋ else -⌊-q⌋

/-- The values of `i` in a loop `for (int i = start; i <= limit; ++i)`. -/
def loopIndices (limit : ℚ) (i : Int) : List Int :=
  if (i : ℚ) ≤ limit then i :: loopIndices limit (i + 1) else []
termination_by (⌊limit⌋ + 1 - i).toNat
decreasing_by
  rename_i h
  have h1 : i ≤ ⌊limit⌋ := Int.le_floor.mpr h
  omega

/-- Source: `Renderer::drawParkingSpotTimer`: the vertices pushed and the two draw calls. -/
def drawParkingSpotTimer (cx cy r redProgress : ℚ) : List Vertex × List DrawCall :=
  let segments : Int := 1000
  let vertices : List Vertex := []
  let vertices := vertices ++ [{ pos := Position.centre cx cy, r := 0, g := 1, b := 0, a := 1 }]
  let vertices := vertices ++
    (loopIndices ((segments : ℚ) * (1 - redProgress)) 0).map
      (fun i => { pos := Position.rim cx cy r i, r := 0, g := 1, b := 0, a := 1 })
  let vertices := vertices ++ [{ pos := Position.centre cx cy, r := 1, g := 0, b := 0, a := 1 }]
  let vertices := vertices ++
    (loopIndices (segments : ℚ) (truncate ((segments : ℚ) * (1 - redProgress)))).map
      (fun i => { pos := Position.rim cx cy r i, r := 1, g := 0, b := 0, a := 1 })
  (vertices,
    [{ first := 0, count := truncate ((segments : ℚ) * (1 - redProgress) + 2) },
     { first := truncate ((segments : ℚ) * (1 - redProgress) + 2)
       count := truncate ((segments : ℚ) - (segments : ℚ) * (1 - redProgress) + 2) }])

/-- The vertices a draw call reads from the buffer. -/
def drawn (vertices : List Vertex) (d : DrawCall) : List Vertex :=
  (vertices.drop d.first.toNat).take d.count.toNat

/-! ## The renderer: text metrics -/

/-- Source: `struct Character` of `Rendering.h`. -/
structure Character where
  TextureID : Nat
  Size : Int × Int
  Bearing : Int × Int
  Advance : Nat
deriving DecidableEq

/-- Source: `std::map<GLchar, Character> Characters`; a `Char` stands for a `char` of the
C string. -/
abbrev CharacterMap : Type := Char → Option Character

/-- The map access `Characters[c]`: a key that is missing is inserted with a
value-initialised record, all of whose members are 0. -/
def charactersAt (m : CharacterMap) (c : Char) : Character × CharacterMap :=
  match m c with
  | some ch => (ch, m)
  | none =>
    ({ TextureID := 0, Size := (0, 0), Bearing := (0, 0), Advance := 0 },
      Function.update m c
        (some { TextureID := 0, Size := (0, 0), Bearing := (0, 0), Advance := 0 }))

/-- Source: `Renderer::measureTextWidth`: the width, and the map after the accesses. -/
def measureTextWidth (text : String) (scale : ℚ) (m : CharacterMap) : ℚ × CharacterMap :=
  text.data.foldl
    (fun acc c =>
      let ch := charactersAt acc.2 c
      (acc.1 + ((ch.1.Advance >>> 6 : Nat) : ℚ) * scale, ch.2))
    (0, m)

/-- The advance of a character as the specification reads it: the one of its glyph record,
and 0 when no record is loaded for the character code. -/
def glyphAdvance (m : CharacterMap) (c : Char) : Nat :=
  match m c with
  | some ch => ch.Advance
  | none => 0

/-- A glyph table with two records: `A` advances 10 pixels and `B` 7 pixels and a half. -/
def sampleGlyphs : CharacterMap := fun c =>
  if c = 'A' then some { TextureID := 1, Size := (8, 10), Bearing := (0, 10), Advance := 640 }
  else if c = 'B' then
    some { TextureID := 2, Size := (6, 10), Bearing := (1, 10), Advance := 480 }
  else none

/-! ## Loops over the grid, spot by spot -/

theorem foldl_loopStep_fst {ι α β : Type} {n : Nat} (idx : ι → Fin n)
    (f : ι → α → α × List β) :
    ∀ (l : List ι), (l.map idx).Nodup → ∀ (s : Fin n → α) (out : List β),
      (∀ p ∈ l, (l.foldl (loopStep idx f) (s, out)).1 (idx p) = (f p (s (idx p))).1) ∧
      (∀ j, j ∉ l.map idx → (l.foldl (loopStep idx f) (s, out)).1 j = s j) := by
  intro l
  induction l with
  | nil => intro _ s out; simp
  | cons i l ih =>
    intro hl s out
    rw [List.map_cons, List.nodup_cons] at hl
    obtain ⟨h1, h2⟩ := ih hl.2 (Function.update s (idx i) (f i (s (idx i))).1)
      (out ++ (f i (s (idx i))).2)
    constructor
    · intro p hp
      rw [List.foldl_cons]
      rcases List.mem_cons.mp hp with rfl | hp
      · have := h2 (idx p) hl.1
        simpa [loopStep] using this
      · have hne : idx p ≠ idx i := fun h => hl.1 (h ▸ List.mem_map_of_mem idx hp)
        have := h1 p hp
        simpa [loopStep, Function.update_noteq hne] using this
    · intro j hj
      rw [List.foldl_cons]
      simp only [List.map_cons, List.mem_cons, not_or] at hj
      have := h2 j hj.2
      simpa [loopStep, Function.update_noteq hj.1] using this

theorem foldl_loopStep_snd {ι α β : Type} {n : Nat} (idx : ι → Fin n)
    (f : ι → α → α × List β) :
    ∀ (l : List ι), (l.map idx).Nodup → ∀ (s : Fin n → α) (out : List β),
      (l.foldl (loopStep idx f) (s, out)).2
        = out ++ (l.map (fun p => (f p (s (idx p))).2)).flatten := by
  intro l
  induction l with
  | nil => intro _ s out; simp
  | cons i l ih =>
    intro hl s out
    rw [List.map_cons, List.nodup_cons] at hl
    rw [List.foldl_cons]
    have h := ih hl.2 (Function.update s (idx i) (f i (s (idx i))).1)
      (out ++ (f i (s (idx i))).2)
    have hmap : l.map (fun p => (f p (Function.update s (idx i) (f i (s (idx i))).1 (idx p))).2)
        = l.map (fun p => (f p (s (idx p))).2) := by
      apply List.map_congr_left
      intro p hp
      have hne : idx p ≠ idx i := fun h => hl.1 (h ▸ List.mem_map_of_mem idx hp)
      simp [Function.update_noteq hne]
    rw [hmap] at h
    simpa [loopStep] using h

theorem updateSpots_fst (deltaTime : ℚ) (spots : Fin (ROWS * COLUMNS) → ParkingSpot)
    (j : Fin (ROWS * COLUMNS)) :
    (updateSpots deltaTime spots).1 j = (updateSpot j.val deltaTime (spots j)).1 :=
  (foldl_loopStep_fst id
    (fun (i : Fin (ROWS * COLUMNS)) s => updateSpot i.val deltaTime s)
    (List.finRange (ROWS * COLUMNS)) (by simpa using List.nodup_finRange _) spots []).1 j
    (List.mem_finRange j)

theorem updateSpots_snd (deltaTime : ℚ) (spots : Fin (ROWS * COLUMNS) → ParkingSpot) :
    (updateSpots deltaTime spots).2
      = ((List.finRange (ROWS * COLUMNS)).map
          (fun i => (updateSpot i.val deltaTime (spots i)).2)).flatten := by
  have h := foldl_loopStep_snd id
    (fun (i : Fin (ROWS * COLUMNS)) s => updateSpot i.val deltaTime s)
    (List.finRange (ROWS * COLUMNS)) (by simpa using List.nodup_finRange _) spots []
  simpa using h

theorem forEachSpot_eq {ε : Type}
    (body : Fin ROWS → Fin COLUMNS → ParkingSpot → ParkingSpot × List ε)
    (spots : Fin (ROWS * COLUMNS) → ParkingSpot) :
    forEachSpot body spots
      = gridOrder.foldl (loopStep (fun p => spotIndex p.1 p.2) (fun p => body p.1 p.2))
          (spots, []) := by
  have h2 : List.finRange ROWS = [0, 1] := by decide
  have h3 : List.finRange COLUMNS = [0, 1, 2] := by decide
  unfold forEachSpot
  rw [h2, h3]
  rfl

theorem gridOrder_nodup : (gridOrder.map (fun p => spotIndex p.1 p.2)).Nodup := by decide

theorem mem_gridOrder (row : Fin ROWS) (col : Fin COLUMNS) : (row, col) ∈ gridOrder := by
  revert row col; decide

theorem forEachSpot_fst {ε : Type}
    (body : Fin ROWS → Fin COLUMNS → ParkingSpot → ParkingSpot × List ε)
    (spots : Fin (ROWS * COLUMNS) → ParkingSpot) (row : Fin ROWS) (col : Fin COLUMNS) :
    (forEachSpot body spots).1 (spotIndex row col)
      = (body row col (spots (spotIndex row col))).1 := by
  rw [forEachSpot_eq]
  exact (foldl_loopStep_fst _ _ gridOrder gridOrder_nodup spots []).1 (row, col)
    (mem_gridOrder row col)

theorem forEachSpot_snd {ε : Type}
    (body : Fin ROWS → Fin COLUMNS → ParkingSpot → ParkingSpot × List ε)
    (spots : Fin (ROWS * COLUMNS) → ParkingSpot) :
    (forEachSpot body spots).2
      = (gridOrder.map (fun p => (body p.1 p.2 (spots (spotIndex p.1 p.2))).2)).flatten := by
  rw [forEachSpot_eq]
  simpa using foldl_loopStep_snd _ _ gridOrder gridOrder_nodup spots []

theorem spotIndex_surj (j : Fin (ROWS * COLUMNS)) :
    ∃ row col, j = spotIndex row col := by
  revert j; decide

/-! ## The spots after each operation -/

theorem handleParkingSpotEvent_spot (row : Fin ROWS) (col : Fin COLUMNS) (mods : Int)
    (w : World) :
    (handleParkingSpotEvent row col mods w).1.parkingSpots (spotIndex row col)
      = (handleSpot mods w.randState (w.parkingSpots (spotIndex row col))).1 := by
  simp [handleParkingSpotEvent]

theorem handleParkingSpotEvent_other (row : Fin ROWS) (col : Fin COLUMNS) (mods : Int)
    (w : World) (j : Fin (ROWS * COLUMNS)) (hj : j ≠ spotIndex row col) :
    (handleParkingSpotEvent row col mods w).1.parkingSpots j = w.parkingSpots j := by
  simp [handleParkingSpotEvent, Function.update_noteq hj]

theorem handleParkingSpotEvent_cues (row : Fin ROWS) (col : Fin COLUMNS) (mods : Int)
    (w : World) :
    (handleParkingSpotEvent row col mods w).2
      = (handleSpot mods w.randState (w.parkingSpots (spotIndex row col))).2.2 := rfl

theorem mouseButtonCallback_spot (button action : Int) (xpos ypos : ℚ) (w : World)
    (row : Fin ROWS) (col : Fin COLUMNS) :
    (mouseButtonCallback button action xpos ypos w).1.parkingSpots (spotIndex row col)
      = if button = GLFW_MOUSE_BUTTON_LEFT ∧ action = GLFW_PRESS then
          (clickSpot xpos ((w.HEIGHT : ℚ) - ypos) (spotX w col) (spotY w row) w.CELL_WIDTH
            w.CELL_HEIGHT (w.parkingSpots (spotIndex row col))).1
        else w.parkingSpots (spotIndex row col) := by
  unfold mouseButtonCallback
  split_ifs with h
  · simp only []
    rw [forEachSpot_fst]
  · rfl

theorem render_spot (w : World) (j : Fin (ROWS * COLUMNS)) :
    (render w).1.parkingSpots j = (renderSpot (w.parkingSpots j)).1 := by
  obtain ⟨row, col, rfl⟩ := spotIndex_surj j
  simp only [render]
  rw [forEachSpot_fst]

theorem updateTitle_spots (deltaTime : ℚ) (w : World) :
    (updateTitle deltaTime w).parkingSpots = w.parkingSpots := by
  unfold updateTitle
  simp only []
  split_ifs <;> rfl

theorem update_spot (deltaTime : ℚ) (w : World) (j : Fin (ROWS * COLUMNS)) :
    (update deltaTime w).1.parkingSpots j
      = (updateSpot j.val deltaTime (w.parkingSpots j)).1 := by
  simp only [update, updateTitle_spots]
  rw [updateSpots_fst]

theorem update_records (deltaTime : ℚ) (w : World) :
    (update deltaTime w).2
      = ((List.finRange (ROWS * COLUMNS)).map
          (fun i => (updateSpot i.val deltaTime (w.parkingSpots i)).2)).flatten := by
  simp only [update]
  rw [updateSpots_snd]

/-! ## The invariant of the spots -/

theorem rand_le (g : RandStream) : (rand g).1 ≤ RAND_MAX := by
  have h := (g 0).isLt
  simp only [rand]
  omega

theorem channel_bounds (g : RandStream) :
    0 ≤ ((rand g).1 : ℚ) / (RAND_MAX : ℚ) ∧ ((rand g).1 : ℚ) / (RAND_MAX : ℚ) ≤ 1 := by
  have h : ((rand g).1 : ℚ) ≤ (RAND_MAX : ℚ) := by exact_mod_cast rand_le g
  have hpos : (0 : ℚ) < (RAND_MAX : ℚ) := by norm_num
  exact ⟨by positivity, (div_le_one hpos).mpr h⟩

theorem spotInv_default : SpotInv {} := by
  constructor <;> norm_num

theorem spotInv_handleSpot (mods : Int) (g : RandStream) (spot : ParkingSpot)
    (h : SpotInv spot) : SpotInv (handleSpot mods g spot).1 := by
  obtain ⟨hv, h0, h20, hp, hc⟩ := h
  unfold handleSpot
  split_ifs with h1 h2 h3
  · refine ⟨by simp, by norm_num, by norm_num, by simp, ?_⟩
    exact ⟨channel_bounds _, channel_bounds _, channel_bounds _, hc.2.2.2⟩
  · exact ⟨fun ho => by simp [h2.1] at ho, by norm_num, by norm_num, by simp, hc⟩
  · exact ⟨by simp, by norm_num, by norm_num, by simp, hc⟩
  · exact ⟨hv, h0, h20, hp, hc⟩

theorem spotInv_clickSpot (xpos ypos x y cellWidth cellHeight : ℚ) (spot : ParkingSpot)
    (h : SpotInv spot) : SpotInv (clickSpot xpos ypos x y cellWidth cellHeight spot).1 := by
  obtain ⟨hv, h0, h20, hp, hc⟩ := h
  unfold clickSpot
  simp only []
  split_ifs with h1 h2
  · exact ⟨by simp, by norm_num, by norm_num, by simp, hc⟩
  · exact ⟨fun ho => by simp [h2.1] at ho, h0, h20, hp, hc⟩
  · exact ⟨hv, h0, h20, hp, hc⟩

theorem spotInv_renderSpot (spot : ParkingSpot) (h : SpotInv spot) :
    SpotInv (renderSpot spot).1 := by
  obtain ⟨hv, h0, h20, hp, hc⟩ := h
  unfold renderSpot
  split_ifs
  · exact ⟨hv, h0, h20, hp, hc⟩
  · exact ⟨hv, h0, h20, hp, hc⟩
  · exact ⟨hv, h0, h20, hp, hc⟩

/-- The spot after the first `if`/`else` of the loop body of `update`. -/
theorem updateSpot_fields (i : Nat) (deltaTime : ℚ) (spot : ParkingSpot) :
    ((updateSpot i deltaTime spot).1.occupied = spot.occupied) ∧
    ((updateSpot i deltaTime spot).1.timer
      = if spot.occupied = true then
          (if spot.timer - deltaTime ≤ 0 then 0 else spot.timer - deltaTime)
        else spot.timer) ∧
    ((updateSpot i deltaTime spot).1.redProgress
      = if spot.occupied = true then 1 - (updateSpot i deltaTime spot).1.timer / 20 else 0) ∧
    ((updateSpot i deltaTime spot).1.blinking
      = if spot.occupied = true then
          (if spot.timer - deltaTime ≤ 0 then true else spot.blinking)
        else false) ∧
    ((updateSpot i deltaTime spot).1.licensePlate = spot.licensePlate) ∧
    ((updateSpot i deltaTime spot).1.driverName = spot.driverName) ∧
    ((updateSpot i deltaTime spot).1.showInfo = spot.showInfo) ∧
    ((updateSpot i deltaTime spot).1.carColor = spot.carColor) ∧
    ((updateSpot i deltaTime spot).1.timerSound = spot.timerSound) := by
  unfold updateSpot
  simp only []
  split_ifs <;> simp_all

theorem updateSpot_records (i : Nat) (deltaTime : ℚ) (spot : ParkingSpot) :
    (updateSpot i deltaTime spot).2
      = if spot.occupied = true ∧ spot.timer - deltaTime ≤ 0 ∧ spot.blinking = false then
          [{ spotName := spotName i, licensePlate := spot.licensePlate }]
        else [] := by
  unfold updateSpot
  simp only []
  split_ifs <;> simp_all

theorem spotInv_updateSpot (i : Nat) (deltaTime : ℚ) (spot : ParkingSpot)
    (hd : 0 ≤ deltaTime) (h : SpotInv spot) : SpotInv (updateSpot i deltaTime spot).1 := by
  obtain ⟨hv, h0, h20, hp, hc⟩ := h
  obtain ⟨e1, e2, e3, e4, e5, e6, e7, e8, -⟩ := updateSpot_fields i deltaTime spot
  refine ⟨?_, ?_, ?_, ?_, ?_⟩
  · intro ho
    rw [e1] at ho
    have ho' : ¬ spot.occupied = true := by simp [ho]
    obtain ⟨a, b, c, d, e⟩ := hv ho
    rw [e2, e3, e4, e5, e7]
    simp [ho', a, d, e]
  · rw [e2]
    split_ifs <;> linarith
  · rw [e2]
    split_ifs <;> linarith
  · intro ho
    rw [e1] at ho
    rw [e3]
    simp [ho]
  · rw [e8]
    exact hc

theorem reachable_spots (P : ParkingSpot → Prop) (h0 : P {})
    (hkey : ∀ mods g spot, P spot → P (handleSpot mods g spot).1)
    (hclick : ∀ xpos ypos x y cellWidth cellHeight spot,
      P spot → P (clickSpot xpos ypos x y cellWidth cellHeight spot).1)
    (hdraw : ∀ spot, P spot → P (renderSpot spot).1)
    (htick : ∀ i deltaTime spot, 0 ≤ deltaTime → P spot → P (updateSpot i deltaTime spot).1)
    (w : World) (hw : Reachable w) : ∀ j, P (w.parkingSpots j) := by
  induction hw with
  | init g => intro j; exact h0
  | step i w hi _ ih =>
    intro j
    cases i with
    | key row col mods =>
      by_cases hj : j = spotIndex row col
      · subst hj
        simp only [step]
        rw [handleParkingSpotEvent_spot]
        exact hkey _ _ _ (ih _)
      · simp only [step]
        rw [handleParkingSpotEvent_other _ _ _ _ _ hj]
        exact ih j
    | mouse button action xpos ypos =>
      obtain ⟨row, col, rfl⟩ := spotIndex_surj j
      simp only [step]
      rw [mouseButtonCallback_spot]
      split_ifs
      · exact hclick _ _ _ _ _ _ _ (ih _)
      · exact ih _
    | resize width height => exact ih j
    | tick deltaTime =>
      simp only [step]
      rw [update_spot]
      exact htick _ _ _ hi (ih j)
    | draw =>
      simp only [step]
      rw [render_spot]
      exact hdraw _ (ih j)

theorem reachable_spotInv (w : World) (hw : Reachable w) (j : Fin (ROWS * COLUMNS)) :
    SpotInv (w.parkingSpots j) :=
  reachable_spots SpotInv spotInv_default spotInv_handleSpot spotInv_clickSpot
    spotInv_renderSpot spotInv_updateSpot w hw j


/-! ## The sample executions, evaluated -/

theorem rand_zeroStream : rand zeroStream = (0, zeroStream) := rfl

theorem generateLicensePlate_zeroStream :
    generateLicensePlate zeroStream = ("AA 000-AA", zeroStream) := rfl

theorem generateDriverName_zeroStream :
    generateDriverName zeroStream = ("John Smith", zeroStream) := rfl

theorem handleSpot_park_zeroStream :
    handleSpot 0 zeroStream {} = (parkedSpot, zeroStream, [SoundCue.parkingSound]) := by
  simp [handleSpot, GLFW_MOD_CONTROL, rand_zeroStream, generateLicensePlate_zeroStream,
    generateDriverName_zeroStream, parkedSpot]

theorem reachable_world0 : Reachable world0 := Reachable.init zeroStream

theorem reachable_parkedWorld : Reachable parkedWorld :=
  Reachable.step (Input.key 0 0 0) world0 trivial reachable_world0

theorem reachable_expiredWorld : Reachable expiredWorld :=
  Reachable.step (Input.tick 20) parkedWorld (by norm_num [Input.wellTimed])
    reachable_parkedWorld

theorem reachable_leftWorld : Reachable leftWorld :=
  Reachable.step (Input.key 0 0 GLFW_MOD_CONTROL) parkedWorld trivial reachable_parkedWorld

theorem parkedWorld_spot : parkedWorld.parkingSpots 0 = parkedSpot := by
  have h := handleParkingSpotEvent_spot 0 0 0 world0
  have e : spotIndex 0 0 = 0 := rfl
  rw [e] at h
  rw [parkedWorld, h]
  show (handleSpot 0 zeroStream {}).1 = parkedSpot
  rw [handleSpot_park_zeroStream]

theorem expiredWorld_spot :
    expiredWorld.parkingSpots 0
      = { parkedSpot with timer := 0, blinking := true, redProgress := 1
                          blinkColor := (1, 0, 0) } := by
  rw [expiredWorld, update_spot, parkedWorld_spot]
  simp [updateSpot, parkedSpot]
  norm_num

theorem leftWorld_spot :
    leftWorld.parkingSpots 0
      = { parkedSpot with occupied := false, timer := 0 , licensePlate := "" } := by
  have h := handleParkingSpotEvent_spot 0 0 GLFW_MOD_CONTROL parkedWorld
  have e : spotIndex 0 0 = 0 := rfl
  rw [e] at h
  rw [leftWorld, h, parkedWorld_spot]
  simp [handleSpot, parkedSpot, GLFW_MOD_CONTROL, GLFW_MOD_SHIFT]

/-! ## The viewport in the sample executions -/

theorem update_viewport (deltaTime : ℚ) (w : World) :
    (update deltaTime w).1.WIDTH = w.WIDTH ∧ (update deltaTime w).1.HEIGHT = w.HEIGHT
      ∧ (update deltaTime w).1.CELL_WIDTH = w.CELL_WIDTH
      ∧ (update deltaTime w).1.CELL_HEIGHT = w.CELL_HEIGHT := by
  simp only [update, updateTitle]
  split_ifs <;> exact ⟨rfl, rfl, rfl, rfl⟩

theorem expiredWorld_viewport :
    expiredWorld.WIDTH = 1400 ∧ expiredWorld.HEIGHT = 800
      ∧ expiredWorld.CELL_WIDTH = 2800 / 11 ∧ expiredWorld.CELL_HEIGHT = 3920 / 11 := by
  obtain ⟨h1, h2, h3, h4⟩ := update_viewport 20 parkedWorld
  rw [expiredWorld, h1, h2, h3, h4]
  refine ⟨rfl, rfl, ?_, ?_⟩
  · show (1400 : ℚ) / (11 / 2) = 2800 / 11
    norm_num
  · show (1400 : ℚ) / (11 / 2) * (7 / 5) = 3920 / 11
    norm_num

theorem expiredWorld_corner :
    spotX expiredWorld 0 = 2730 / 11 ∧ spotY expiredWorld 0 = 400 := by
  obtain ⟨h1, h2, h3, h4⟩ := expiredWorld_viewport
  constructor
  · simp only [spotX, horizontalOffset, h1, h3, additionalHorizontalSpacing,
      parkingSpotDistance]
    norm_num
  · simp only [spotY, verticalOffset, h2, h4]
    norm_num

theorem clickedWorld_spot :
    clickedWorld.parkingSpots 0
      = { parkedSpot with occupied := false, timer := 0, licensePlate := ""
                          blinkColor := (1, 0, 0) } := by
  have h := mouseButtonCallback_spot GLFW_MOUSE_BUTTON_LEFT GLFW_PRESS (2180 / 11) (2825 / 11)
    expiredWorld 0 0
  have e : spotIndex 0 0 = 0 := rfl
  obtain ⟨h1, h2, h3, h4⟩ := expiredWorld_viewport
  obtain ⟨hx, hy⟩ := expiredWorld_corner
  rw [e, if_pos ⟨rfl, rfl⟩, hx, hy, h2, h3, h4, expiredWorld_spot] at h
  rw [clickedWorld, h]
  simp [clickSpot, parkedSpot, parkingSpotDistance]
  norm_num

theorem reachable_clickedWorld : Reachable clickedWorld :=
  Reachable.step (Input.mouse GLFW_MOUSE_BUTTON_LEFT GLFW_PRESS (2180 / 11) (2825 / 11))
    expiredWorld trivial reachable_expiredWorld

/-! ## Invariants of the grid -/

/-- C1: in every reachable state a spot that is not occupied has `timer = 0`,
`blinking = false` and `redProgress = 0`. -/
theorem vacant_spot_is_reset (w : World) (hw : Reachable w) (j : Fin (ROWS * COLUMNS))
    (hv : (w.parkingSpots j).occupied = false) :
    (w.parkingSpots j).timer = 0 ∧ (w.parkingSpots j).blinking = false
      ∧ (w.parkingSpots j).redProgress = 0 := by
  obtain ⟨a, b, c, -, -⟩ := (reachable_spotInv w hw j).vacant hv
  exact ⟨a, b, c⟩

/-- Witness of C1: spot A1 after a car parked and left again. -/
theorem vacant_spot_is_reset_witness :
    Reachable leftWorld ∧ (leftWorld.parkingSpots 0).occupied = false
      ∧ ((leftWorld.parkingSpots 0).timer = 0 ∧ (leftWorld.parkingSpots 0).blinking = false
        ∧ (leftWorld.parkingSpots 0).redProgress = 0) :=
  ⟨reachable_leftWorld, by rw [leftWorld_spot],
    vacant_spot_is_reset leftWorld reachable_leftWorld 0 (by rw [leftWorld_spot])⟩

/-- C2: in every reachable state a spot that is blinking is occupied. -/
theorem blinking_spot_is_occupied (w : World) (hw : Reachable w) (j : Fin (ROWS * COLUMNS))
    (hb : (w.parkingSpots j).blinking = true) : (w.parkingSpots j).occupied = true := by
  by_contra ho
  have hv : (w.parkingSpots j).occupied = false := by simpa using ho
  have hnb := ((reachable_spotInv w hw j).vacant hv).2.1
  rw [hnb] at hb
  exact Bool.false_ne_true hb

/-- Witness of C2: spot A1 after a car parked and its 20 seconds ran out. -/
theorem blinking_spot_is_occupied_witness :
    Reachable expiredWorld ∧ (expiredWorld.parkingSpots 0).blinking = true
      ∧ (expiredWorld.parkingSpots 0).occupied = true :=
  ⟨reachable_expiredWorld, by rw [expiredWorld_spot],
    blinking_spot_is_occupied expiredWorld reachable_expiredWorld 0
      (by rw [expiredWorld_spot])⟩

/-- The part of C3 the code keeps: in every reachable state a spot that is not occupied has
an empty licence plate and `showInfo = false`. -/
theorem vacant_spot_plate_cleared (w : World) (hw : Reachable w) (j : Fin (ROWS * COLUMNS))
    (hv : (w.parkingSpots j).occupied = false) :
    (w.parkingSpots j).licensePlate = "" ∧ (w.parkingSpots j).showInfo = false := by
  obtain ⟨-, -, -, d, e⟩ := (reachable_spotInv w hw j).vacant hv
  exact ⟨d, e⟩

/-- C3, the code at the failing inputs: a car parks on A1 and leaves, once with Control and
once by a click on the blinking indicator after its time expired.  Both states are
reachable, the spot is vacant, its licence plate is empty and `showInfo` is false, but
`driverName` still holds the name Park assigned. -/
theorem leave_keeps_driverName :
    (Reachable leftWorld ∧ (leftWorld.parkingSpots 0).occupied = false
      ∧ (leftWorld.parkingSpots 0).licensePlate = ""
      ∧ (leftWorld.parkingSpots 0).showInfo = false
      ∧ (leftWorld.parkingSpots 0).driverName = "John Smith"
      ∧ (leftWorld.parkingSpots 0).driverName ≠ "")
    ∧ (Reachable clickedWorld ∧ (clickedWorld.parkingSpots 0).occupied = false
      ∧ (clickedWorld.parkingSpots 0).licensePlate = ""
      ∧ (clickedWorld.parkingSpots 0).showInfo = false
      ∧ (clickedWorld.parkingSpots 0).driverName = "John Smith"
      ∧ (clickedWorld.parkingSpots 0).driverName ≠ "") := by
  constructor
  · refine ⟨reachable_leftWorld, ?_, ?_, ?_, ?_, ?_⟩ <;> rw [leftWorld_spot]
    · rfl
    · rfl
    · decide
  · refine ⟨reachable_clickedWorld, ?_, ?_, ?_, ?_, ?_⟩ <;> rw [clickedWorld_spot]
    · rfl
    · rfl
    · decide

/-! ## Park -/

/-- C4: in a reachable state, `handleParkingSpotEvent` without modifier on a vacant spot
makes it occupied with `timer = 20`, `blinking = false`, `redProgress = 0`, the licence plate
and the driver name that `generateLicensePlate` and `generateDriverName` produce next, and
colour channels in `[0, 1]`; the parking sound is played and no other spot changes. -/
theorem park_vacant_spot (w : World) (hw : Reachable w) (row : Fin ROWS) (col : Fin COLUMNS)
    (hv : (w.parkingSpots (spotIndex row col)).occupied = false) :
    ((handleParkingSpotEvent row col 0 w).1.parkingSpots (spotIndex row col)).occupied = true
    ∧ ((handleParkingSpotEvent row col 0 w).1.parkingSpots (spotIndex row col)).timer = 20
    ∧ ((handleParkingSpotEvent row col 0 w).1.parkingSpots (spotIndex row col)).blinking = false
    ∧ ((handleParkingSpotEvent row col 0 w).1.parkingSpots (spotIndex row col)).redProgress = 0
    ∧ ((handleParkingSpotEvent row col 0 w).1.parkingSpots (spotIndex row col)).licensePlate
        = (generateLicensePlate w.randState).1
    ∧ ((handleParkingSpotEvent row col 0 w).1.parkingSpots (spotIndex row col)).driverName
        = (generateDriverName (generateLicensePlate w.randState).2).1
    ∧ (∀ c ∈ [((handleParkingSpotEvent row col 0 w).1.parkingSpots (spotIndex row col)).carColor.1,
          ((handleParkingSpotEvent row col 0 w).1.parkingSpots (spotIndex row col)).carColor.2.1,
          ((handleParkingSpotEvent row col 0 w).1.parkingSpots (spotIndex row col)).carColor.2.2.1,
          ((handleParkingSpotEvent row col 0 w).1.parkingSpots (spotIndex row col)).carColor.2.2.2],
        0 ≤ c ∧ c ≤ 1)
    ∧ (∀ j, j ≠ spotIndex row col →
        (handleParkingSpotEvent row col 0 w).1.parkingSpots j = w.parkingSpots j)
    ∧ (handleParkingSpotEvent row col 0 w).2 = [SoundCue.parkingSound] := by
  have hinv := reachable_spotInv w hw (spotIndex row col)
  have hnb := (hinv.vacant hv).2.1
  have hinv' := spotInv_handleSpot 0 w.randState _ hinv
  have hpark : (0 : Int) ≠ GLFW_MOD_CONTROL := by decide
  rw [handleParkingSpotEvent_cues, handleParkingSpotEvent_spot]
  refine ⟨?_, ?_, ?_, ?_, ?_, ?_, ?_, ?_, ?_⟩
  · simp [handleSpot, hv, hpark]
  · simp [handleSpot, hv, hpark]
  · simp [handleSpot, hv, hpark, hnb]
  · simp [handleSpot, hv, hpark]
  · simp [handleSpot, hv, hpark]
  · simp [handleSpot, hv, hpark]
  · obtain ⟨c1, c2, c3, c4⟩ := hinv'.color
    intro c hc
    simp only [List.mem_cons, List.mem_singleton, List.not_mem_nil, or_false] at hc
    rcases hc with rfl | rfl | rfl | rfl
    · exact c1
    · exact c2
    · exact c3
    · exact c4
  · intro j hj
    exact handleParkingSpotEvent_other row col 0 w j hj
  · simp [handleSpot, hv, hpark]

/-- Witness of C4: Park on A1 in the initial state. -/
theorem park_vacant_spot_witness :
    Reachable world0 ∧ (world0.parkingSpots (spotIndex 0 0)).occupied = false
      ∧ ((handleParkingSpotEvent 0 0 0 world0).1.parkingSpots (spotIndex 0 0)).occupied = true
      ∧ ((handleParkingSpotEvent 0 0 0 world0).1.parkingSpots (spotIndex 0 0)).timer = 20 :=
  ⟨reachable_world0, rfl,
    (park_vacant_spot world0 reachable_world0 0 0 rfl).1,
    (park_vacant_spot world0 reachable_world0 0 0 rfl).2.1⟩

/-! ## Transitions whose precondition does not hold -/

/-- C5 as stated fails: Shift on the vacant spot A1 of the initial state is not a no-op.
The spot becomes occupied with `timer = 20` and the parking sound is played. -/
theorem shift_on_vacant_spot_parks :
    (world0.parkingSpots (spotIndex 0 0)).occupied = false
      ∧ (handleParkingSpotEvent 0 0 GLFW_MOD_SHIFT world0).1.parkingSpots (spotIndex 0 0)
          ≠ world0.parkingSpots (spotIndex 0 0)
      ∧ ((handleParkingSpotEvent 0 0 GLFW_MOD_SHIFT world0).1.parkingSpots
          (spotIndex 0 0)).occupied = true
      ∧ ((handleParkingSpotEvent 0 0 GLFW_MOD_SHIFT world0).1.parkingSpots
          (spotIndex 0 0)).timer = 20
      ∧ (handleParkingSpotEvent 0 0 GLFW_MOD_SHIFT world0).2 = [SoundCue.parkingSound] := by
  have hs : GLFW_MOD_SHIFT ≠ GLFW_MOD_CONTROL := by decide
  have hv : (world0.parkingSpots (spotIndex 0 0)).occupied = false := rfl
  have ho : ((handleParkingSpotEvent 0 0 GLFW_MOD_SHIFT world0).1.parkingSpots
      (spotIndex 0 0)).occupied = true := by
    rw [handleParkingSpotEvent_spot]
    simp [handleSpot, hv, hs]
  refine ⟨hv, ?_, ho, ?_, ?_⟩
  · intro h
    rw [h, hv] at ho
    exact Bool.false_ne_true ho
  · rw [handleParkingSpotEvent_spot]
    simp [handleSpot, hv, hs]
  · rw [handleParkingSpotEvent_cues]
    simp [handleSpot, hv, hs]

/-- C5, amended: `handleParkingSpotEvent` returns the state unchanged and plays no sound
when it is called without modifier on an occupied spot, or with Control on a vacant spot.
With Shift on a vacant spot it is not a no-op: it does what it does without modifier, and
the spot is occupied afterwards. -/
theorem mismatched_transition (w : World) (row : Fin ROWS) (col : Fin COLUMNS) :
    ((w.parkingSpots (spotIndex row col)).occupied = true →
      handleParkingSpotEvent row col 0 w = (w, []))
    ∧ ((w.parkingSpots (spotIndex row col)).occupied = false →
      handleParkingSpotEvent row col GLFW_MOD_CONTROL w = (w, []))
    ∧ ((w.parkingSpots (spotIndex row col)).occupied = false →
      handleParkingSpotEvent row col GLFW_MOD_SHIFT w = handleParkingSpotEvent row col 0 w
      ∧ ((handleParkingSpotEvent row col GLFW_MOD_SHIFT w).1.parkingSpots
          (spotIndex row col)).occupied = true) := by
  refine ⟨?_, ?_, ?_⟩
  · intro ho
    have hspot : handleSpot 0 w.randState (w.parkingSpots (spotIndex row col))
        = (w.parkingSpots (spotIndex row col), w.randState, []) := by
      simp [handleSpot, ho, GLFW_MOD_SHIFT, GLFW_MOD_CONTROL]
    simp only [handleParkingSpotEvent, hspot, Function.update_eq_self]
  · intro hv
    have hspot : handleSpot GLFW_MOD_CONTROL w.randState (w.parkingSpots (spotIndex row col))
        = (w.parkingSpots (spotIndex row col), w.randState, []) := by
      simp [handleSpot, hv]
    simp only [handleParkingSpotEvent, hspot, Function.update_eq_self]
  · intro hv
    have hs : GLFW_MOD_SHIFT ≠ GLFW_MOD_CONTROL := by decide
    have hz : (0 : Int) ≠ GLFW_MOD_CONTROL := by decide
    have hspot : handleSpot GLFW_MOD_SHIFT w.randState (w.parkingSpots (spotIndex row col))
        = handleSpot 0 w.randState (w.parkingSpots (spotIndex row col)) := by
      simp [handleSpot, hv, hs, hz]
    constructor
    · simp only [handleParkingSpotEvent, hspot]
    · rw [handleParkingSpotEvent_spot]
      simp [handleSpot, hv, hs]

/-- Witness of C5, amended: no modifier on the occupied A1, Control and Shift on the vacant
A1 of the initial state. -/
theorem mismatched_transition_witness :
    (parkedWorld.parkingSpots (spotIndex 0 0)).occupied = true
      ∧ handleParkingSpotEvent 0 0 0 parkedWorld = (parkedWorld, [])
      ∧ (world0.parkingSpots (spotIndex 0 0)).occupied = false
      ∧ handleParkingSpotEvent 0 0 GLFW_MOD_CONTROL world0 = (world0, [])
      ∧ ((handleParkingSpotEvent 0 0 GLFW_MOD_SHIFT world0).1.parkingSpots
          (spotIndex 0 0)).occupied = true :=
  have e : spotIndex 0 0 = 0 := rfl
  have ho : (parkedWorld.parkingSpots (spotIndex 0 0)).occupied = true := by
    rw [e, parkedWorld_spot]; rfl
  ⟨ho, (mismatched_transition parkedWorld 0 0).1 ho, rfl,
    (mismatched_transition world0 0 0).2.1 rfl,
    ((mismatched_transition world0 0 0).2.2 rfl).2⟩

/-! ## Renew -/

theorem handleSpot_renew (g : RandStream) (spot : ParkingSpot) (ho : spot.occupied = true) :
    handleSpot GLFW_MOD_SHIFT g spot = ({ spot with timer := 20, redProgress := 0 }, g, []) := by
  simp [handleSpot, ho]

/-- C6: Renew (Shift) on an occupied spot sets `timer = 20` and `redProgress = 0` and keeps
`occupied`, `blinking`, `blinkTimer`, `blinkColor`, `carColor`, `driverName`, `licensePlate`
and `showInfo`; the next tick by `deltaTime < 20` (in particular `0 ≤ deltaTime < 20`) sets
`redProgress` to `1 - (20 - deltaTime) / 20` and leaves `blinking` as it was, so a blinking
spot still blinks. -/
theorem renew_then_tick (w : World) (row : Fin ROWS) (col : Fin COLUMNS) (deltaTime : ℚ)
    (ho : (w.parkingSpots (spotIndex row col)).occupied = true) (h20 : deltaTime < 20) :
    ((handleParkingSpotEvent row col GLFW_MOD_SHIFT w).1.parkingSpots (spotIndex row col)).timer
        = 20
    ∧ ((handleParkingSpotEvent row col GLFW_MOD_SHIFT w).1.parkingSpots
        (spotIndex row col)).redProgress = 0
    ∧ ((handleParkingSpotEvent row col GLFW_MOD_SHIFT w).1.parkingSpots
        (spotIndex row col)).occupied = (w.parkingSpots (spotIndex row col)).occupied
    ∧ ((handleParkingSpotEvent row col GLFW_MOD_SHIFT w).1.parkingSpots
        (spotIndex row col)).blinking = (w.parkingSpots (spotIndex row col)).blinking
    ∧ ((handleParkingSpotEvent row col GLFW_MOD_SHIFT w).1.parkingSpots
        (spotIndex row col)).blinkTimer = (w.parkingSpots (spotIndex row col)).blinkTimer
    ∧ ((handleParkingSpotEvent row col GLFW_MOD_SHIFT w).1.parkingSpots
        (spotIndex row col)).blinkColor = (w.parkingSpots (spotIndex row col)).blinkColor
    ∧ ((handleParkingSpotEvent row col GLFW_MOD_SHIFT w).1.parkingSpots
        (spotIndex row col)).carColor = (w.parkingSpots (spotIndex row col)).carColor
    ∧ ((handleParkingSpotEvent row col GLFW_MOD_SHIFT w).1.parkingSpots
        (spotIndex row col)).driverName = (w.parkingSpots (spotIndex row col)).driverName
    ∧ ((handleParkingSpotEvent row col GLFW_MOD_SHIFT w).1.parkingSpots
        (spotIndex row col)).licensePlate = (w.parkingSpots (spotIndex row col)).licensePlate
    ∧ ((handleParkingSpotEvent row col GLFW_MOD_SHIFT w).1.parkingSpots
        (spotIndex row col)).showInfo = (w.parkingSpots (spotIndex row col)).showInfo
    ∧ ((update deltaTime (handleParkingSpotEvent row col GLFW_MOD_SHIFT w).1).1.parkingSpots
        (spotIndex row col)).redProgress = 1 - (20 - deltaTime) / 20
    ∧ ((update deltaTime (handleParkingSpotEvent row col GLFW_MOD_SHIFT w).1).1.parkingSpots
        (spotIndex row col)).blinking = (w.parkingSpots (spotIndex row col)).blinking := by
  have hpos : ¬ (20 - deltaTime ≤ 0) := by linarith
  rw [update_spot, handleParkingSpotEvent_spot, handleSpot_renew _ _ ho]
  obtain ⟨-, e2, e3, e4, -⟩ := updateSpot_fields (spotIndex row col).val deltaTime
    { w.parkingSpots (spotIndex row col) with timer := 20, redProgress := 0 }
  refine ⟨rfl, rfl, rfl, rfl, rfl, rfl, rfl, rfl, rfl, rfl, ?_, ?_⟩
  · rw [e3, e2]
    simp [ho, hpos]
  · rw [e4]
    simp [ho, hpos]

/-- Witness of C6: Renew of the expired, blinking A1 and a tick of 5 seconds. -/
theorem renew_then_tick_witness :
    (expiredWorld.parkingSpots (spotIndex 0 0)).occupied = true
      ∧ (expiredWorld.parkingSpots (spotIndex 0 0)).blinking = true
      ∧ ((update 5 (handleParkingSpotEvent 0 0 GLFW_MOD_SHIFT expiredWorld).1).1.parkingSpots
          (spotIndex 0 0)).redProgress = 1 - (20 - 5) / 20
      ∧ ((update 5 (handleParkingSpotEvent 0 0 GLFW_MOD_SHIFT expiredWorld).1).1.parkingSpots
          (spotIndex 0 0)).blinking = (expiredWorld.parkingSpots (spotIndex 0 0)).blinking :=
  have e : spotIndex 0 0 = 0 := rfl
  have ho : (expiredWorld.parkingSpots (spotIndex 0 0)).occupied = true := by
    rw [e, expiredWorld_spot]; rfl
  have h := renew_then_tick expiredWorld 0 0 5 ho (by norm_num)
  ⟨ho, by rw [e, expiredWorld_spot], h.2.2.2.2.2.2.2.2.2.2.1, h.2.2.2.2.2.2.2.2.2.2.2⟩

/-- C7 as stated fails: A1 is occupied and blinking, it is renewed with Shift, and after the
next tick of one second `blinking` is still true. -/
theorem renewed_spot_still_blinks :
    Reachable expiredWorld
      ∧ (expiredWorld.parkingSpots (spotIndex 0 0)).occupied = true
      ∧ (expiredWorld.parkingSpots (spotIndex 0 0)).blinking = true
      ∧ ((update 1 (handleParkingSpotEvent 0 0 GLFW_MOD_SHIFT expiredWorld).1).1.parkingSpots
          (spotIndex 0 0)).blinking ≠ false := by
  have e : spotIndex 0 0 = 0 := rfl
  have ho : (expiredWorld.parkingSpots 0).occupied = true := by rw [expiredWorld_spot]; rfl
  refine ⟨reachable_expiredWorld, by rw [e]; exact ho, by rw [e, expiredWorld_spot], ?_⟩
  rw [update_spot, handleParkingSpotEvent_spot, e, handleSpot_renew _ _ ho, expiredWorld_spot]
  simp [updateSpot, parkedSpot]
  norm_num

/-- C7, amended: after Renew of an occupied, blinking spot the next tick, by any
`deltaTime` and so by one in `[0, 20)`, does not clear the flag: `blinking` is true when
`update` returns. -/
theorem renew_keeps_blinking (w : World) (row : Fin ROWS) (col : Fin COLUMNS) (deltaTime : ℚ)
    (ho : (w.parkingSpots (spotIndex row col)).occupied = true)
    (hb : (w.parkingSpots (spotIndex row col)).blinking = true) :
    ((update deltaTime (handleParkingSpotEvent row col GLFW_MOD_SHIFT w).1).1.parkingSpots
      (spotIndex row col)).blinking = true := by
  rw [update_spot, handleParkingSpotEvent_spot, handleSpot_renew _ _ ho]
  obtain ⟨-, -, -, e4, -⟩ := updateSpot_fields (spotIndex row col).val deltaTime
    { w.parkingSpots (spotIndex row col) with timer := 20, redProgress := 0 }
  rw [e4]
  simp [ho, hb]

/-- Witness of C7, amended: Renew of the expired, blinking A1 and a tick of 5 seconds. -/
theorem renew_keeps_blinking_witness :
    (expiredWorld.parkingSpots (spotIndex 0 0)).occupied = true
      ∧ (expiredWorld.parkingSpots (spotIndex 0 0)).blinking = true
      ∧ ((update 5 (handleParkingSpotEvent 0 0 GLFW_MOD_SHIFT expiredWorld).1).1.parkingSpots
          (spotIndex 0 0)).blinking = true :=
  have e : spotIndex 0 0 = 0 := rfl
  have ho : (expiredWorld.parkingSpots (spotIndex 0 0)).occupied = true := by
    rw [e, expiredWorld_spot]; rfl
  have hb : (expiredWorld.parkingSpots (spotIndex 0 0)).blinking = true := by
    rw [e, expiredWorld_spot]
  ⟨ho, hb, renew_keeps_blinking expiredWorld 0 0 5 ho hb⟩

/-! ## Expiry and the audit line -/

theorem spotName_injective :
    ∀ i j : Fin (ROWS * COLUMNS), spotName i.val = spotName j.val → i = j := by
  decide

theorem recordsFor_updateSpot (j i : Fin (ROWS * COLUMNS)) (deltaTime : ℚ)
    (spot : ParkingSpot) :
    recordsFor j (updateSpot i.val deltaTime spot).2
      = if i = j then (updateSpot i.val deltaTime spot).2 else [] := by
  rw [updateSpot_records]
  by_cases hij : i = j
  · subst hij
    rw [if_pos rfl]
    split_ifs <;> simp [recordsFor]
  · have hn : ¬ spotName i.val = spotName j.val := fun h => hij (spotName_injective i j h)
    rw [if_neg hij]
    split_ifs <;> simp [recordsFor, hn]

theorem recordsFor_append (j : Fin (ROWS * COLUMNS)) (a b : List AuditRecord) :
    recordsFor j (a ++ b) = recordsFor j a ++ recordsFor j b := by
  simp [recordsFor]

theorem recordsFor_flatten {n : Nat} (j : Fin (ROWS * COLUMNS))
    (f : Fin n → List AuditRecord) (g : Fin n → List AuditRecord)
    (hfg : ∀ i, recordsFor j (f i) = g i) :
    ∀ l : List (Fin n), recordsFor j (l.map f).flatten = (l.map g).flatten := by
  intro l
  induction l with
  | nil => rfl
  | cons i l ih =>
    simp only [List.map_cons, List.flatten_cons, recordsFor_append, ih, hfg]

theorem flatten_single {n : Nat} (j : Fin n) (r : Fin n → List AuditRecord) :
    ∀ l : List (Fin n), l.Nodup →
      (l.map (fun i => if i = j then r i else [])).flatten = if j ∈ l then r j else [] := by
  intro l
  induction l with
  | nil => intro _; rfl
  | cons i l ih =>
    intro hl
    rw [List.nodup_cons] at hl
    simp only [List.map_cons, List.flatten_cons, ih hl.2]
    by_cases hij : i = j
    · subst hij
      simp [hl.1]
    · have hji : ¬ j = i := fun h => hij h.symm
      simp [hij, hji]

theorem recordsFor_update (j : Fin (ROWS * COLUMNS)) (deltaTime : ℚ) (w : World) :
    recordsFor j (update deltaTime w).2 = (updateSpot j.val deltaTime (w.parkingSpots j)).2 := by
  rw [update_records,
    recordsFor_flatten j _ _ (fun i => recordsFor_updateSpot j i deltaTime (w.parkingSpots i)),
    flatten_single j (fun i => (updateSpot i.val deltaTime (w.parkingSpots i)).2) _
      (List.nodup_finRange _)]
  simp

/-- C8 as stated fails: A1 is occupied in a reachable state (its time has already expired,
so it blinks), and a tick of 20 seconds prints no audit line for it. -/
theorem expired_spot_prints_no_second_record :
    Reachable expiredWorld
      ∧ (expiredWorld.parkingSpots 0).occupied = true
      ∧ (recordsFor 0 (update 20 expiredWorld).2).length ≠ 1 := by
  refine ⟨reachable_expiredWorld, by rw [expiredWorld_spot]; rfl, ?_⟩
  rw [recordsFor_update, updateSpot_records, expiredWorld_spot]
  simp

/-- C8, amended: for an occupied spot of a reachable state a tick of 20 seconds leaves
`timer = 0` and `blinking = true`; it prints exactly one audit line for the spot when the
spot was not blinking before and none when it was; a further tick by any `deltaTime`, so by
any positive one, prints no audit line for it. -/
theorem tick_of_full_time (w : World) (hw : Reachable w) (j : Fin (ROWS * COLUMNS))
    (ho : (w.parkingSpots j).occupied = true) :
    ((update 20 w).1.parkingSpots j).timer = 0
    ∧ ((update 20 w).1.parkingSpots j).blinking = true
    ∧ ((w.parkingSpots j).blinking = false →
        recordsFor j (update 20 w).2
          = [{ spotName := spotName j.val, licensePlate := (w.parkingSpots j).licensePlate }])
    ∧ ((w.parkingSpots j).blinking = true → recordsFor j (update 20 w).2 = [])
    ∧ (∀ deltaTime : ℚ, recordsFor j (update deltaTime (update 20 w).1).2 = []) := by
  have hle : (w.parkingSpots j).timer - 20 ≤ 0 := by
    have := (reachable_spotInv w hw j).timer_le
    linarith
  obtain ⟨e1, e2, -, e4, -⟩ := updateSpot_fields j.val 20 (w.parkingSpots j)
  have ht : ((update 20 w).1.parkingSpots j).timer = 0 := by
    rw [update_spot, e2]; simp [ho, hle]
  have hb : ((update 20 w).1.parkingSpots j).blinking = true := by
    rw [update_spot, e4]; simp [ho, hle]
  refine ⟨ht, hb, ?_, ?_, ?_⟩
  · intro hnb
    rw [recordsFor_update, updateSpot_records]
    simp [ho, hle, hnb]
  · intro hbl
    rw [recordsFor_update, updateSpot_records]
    simp [hbl]
  · intro deltaTime
    rw [recordsFor_update, updateSpot_records]
    simp [hb]

/-- Witness of C8, amended: A1 right after Park; the tick of 20 seconds prints one line, a
further tick of one second prints none. -/
theorem tick_of_full_time_witness :
    Reachable parkedWorld ∧ (parkedWorld.parkingSpots 0).occupied = true
      ∧ (parkedWorld.parkingSpots 0).blinking = false
      ∧ recordsFor 0 (update 20 parkedWorld).2
          = [{ spotName := "A1", licensePlate := "AA 000-AA" }]
      ∧ recordsFor 0 (update 1 (update 20 parkedWorld).1).2 = [] :=
  have ho : (parkedWorld.parkingSpots 0).occupied = true := by rw [parkedWorld_spot]; rfl
  have hb : (parkedWorld.parkingSpots 0).blinking = false := by rw [parkedWorld_spot]; rfl
  have h := tick_of_full_time parkedWorld reachable_parkedWorld 0 ho
  ⟨reachable_parkedWorld, ho, hb, by
    have h3 := h.2.2.1 hb
    rw [parkedWorld_spot] at h3
    exact h3, h.2.2.2.2 1⟩

/-! ## Progress of the timer arc -/

/-- C10: for an occupied spot of a reachable state and a tick with `deltaTime ≥ 0`,
`redProgress` after the tick is at least `redProgress` before it and lies in `[0, 1]`. -/
theorem redProgress_monotone (w : World) (hw : Reachable w) (j : Fin (ROWS * COLUMNS))
    (deltaTime : ℚ) (ho : (w.parkingSpots j).occupied = true) (hd : 0 ≤ deltaTime) :
    (w.parkingSpots j).redProgress ≤ ((update deltaTime w).1.parkingSpots j).redProgress
    ∧ 0 ≤ ((update deltaTime w).1.parkingSpots j).redProgress
    ∧ ((update deltaTime w).1.parkingSpots j).redProgress ≤ 1 := by
  obtain ⟨-, h0, h20, hp, -⟩ := reachable_spotInv w hw j
  obtain ⟨-, e2, e3, -⟩ := updateSpot_fields j.val deltaTime (w.parkingSpots j)
  rw [update_spot, e3, e2, hp ho]
  simp only [ho, if_true]
  split_ifs <;> constructor <;> [skip; constructor; skip; constructor] <;> linarith

/-- Witness of C10: A1 right after Park and a tick of 5 seconds. -/
theorem redProgress_monotone_witness :
    Reachable parkedWorld ∧ (parkedWorld.parkingSpots 0).occupied = true ∧ (0 : ℚ) ≤ 5
      ∧ (parkedWorld.parkingSpots 0).redProgress
          ≤ ((update 5 parkedWorld).1.parkingSpots 0).redProgress
      ∧ 0 ≤ ((update 5 parkedWorld).1.parkingSpots 0).redProgress
      ∧ ((update 5 parkedWorld).1.parkingSpots 0).redProgress ≤ 1 :=
  have ho : (parkedWorld.parkingSpots 0).occupied = true := by rw [parkedWorld_spot]; rfl
  ⟨reachable_parkedWorld, ho, by norm_num,
    redProgress_monotone parkedWorld reachable_parkedWorld 0 5 ho (by norm_num)⟩

/-! ## One audit line per occupancy -/

theorem handleSpot_blinking (mods : Int) (g : RandStream) (spot : ParkingSpot)
    (ho : (handleSpot mods g spot).1.occupied = true) :
    (handleSpot mods g spot).1.blinking = spot.blinking := by
  unfold handleSpot at ho ⊢
  split_ifs at ho ⊢ <;> simp_all

theorem clickSpot_blinking (xpos ypos x y cellWidth cellHeight : ℚ) (spot : ParkingSpot)
    (ho : (clickSpot xpos ypos x y cellWidth cellHeight spot).1.occupied = true) :
    (clickSpot xpos ypos x y cellWidth cellHeight spot).1.blinking = spot.blinking := by
  unfold clickSpot at ho ⊢
  simp only [] at ho ⊢
  split_ifs at ho ⊢ <;> simp_all

theorem renderSpot_blinking (spot : ParkingSpot) :
    (renderSpot spot).1.blinking = spot.blinking := by
  unfold renderSpot
  split_ifs <;> rfl

/-- An input other than a tick leaves the `blinking` flag of a spot alone, unless the spot
is vacant afterwards. -/
theorem step_blinking (i : Input) (w : World) (j : Fin (ROWS * COLUMNS))
    (hi : ∀ deltaTime, i ≠ Input.tick deltaTime)
    (ho : ((step i w).1.parkingSpots j).occupied = true) :
    ((step i w).1.parkingSpots j).blinking = (w.parkingSpots j).blinking := by
  cases i with
  | key row col mods =>
    simp only [step] at ho ⊢
    by_cases hj : j = spotIndex row col
    · subst hj
      rw [handleParkingSpotEvent_spot] at ho ⊢
      exact handleSpot_blinking _ _ _ ho
    · rw [handleParkingSpotEvent_other _ _ _ _ _ hj]
  | mouse button action xpos ypos =>
    obtain ⟨row, col, rfl⟩ := spotIndex_surj j
    simp only [step] at ho ⊢
    rw [mouseButtonCallback_spot] at ho ⊢
    split_ifs at ho ⊢
    · exact clickSpot_blinking _ _ _ _ _ _ _ ho
    · rfl
  | resize width height => rfl
  | tick deltaTime => exact absurd rfl (hi deltaTime)
  | draw =>
    simp only [step]
    rw [render_spot]
    exact renderSpot_blinking _

theorem step_records (i : Input) (w : World) (hi : ∀ deltaTime, i ≠ Input.tick deltaTime) :
    (step i w).2.2 = [] := by
  cases i with
  | tick deltaTime => exact absurd rfl (hi deltaTime)
  | _ => rfl

theorem staysOccupied_head (j : Fin (ROWS * COLUMNS)) (inputs : List Input) (w : World)
    (h : staysOccupied j inputs w) : (w.parkingSpots j).occupied = true := by
  cases inputs with
  | nil => exact h
  | cons i rest => exact h.1

theorem tickTrace_cons (j : Fin (ROWS * COLUMNS)) (i : Input) (rest : List Input) (w : World)
    (hi : ∀ deltaTime, i ≠ Input.tick deltaTime) :
    tickTrace j (i :: rest) w = tickTrace j rest (step i w).1 := by
  cases i with
  | tick deltaTime => exact absurd rfl (hi deltaTime)
  | _ => rfl

/-- Once a spot blinks, no audit line is printed for it as long as it stays occupied. -/
theorem blinking_run (j : Fin (ROWS * COLUMNS)) :
    ∀ (inputs : List Input) (w : World), (w.parkingSpots j).blinking = true →
      staysOccupied j inputs w →
      recordsFor j (run inputs w).2 = [] ∧ ∀ x ∈ tickTrace j inputs w, x.2 = 0 := by
  intro inputs
  induction inputs with
  | nil => intro w _ _; exact ⟨rfl, by simp [tickTrace]⟩
  | cons i rest ih =>
    intro w hb hs
    have ho' := staysOccupied_head j rest _ hs.2
    by_cases hi : ∃ deltaTime, i = Input.tick deltaTime
    · obtain ⟨deltaTime, rfl⟩ := hi
      have hrec : recordsFor j (update deltaTime w).2 = [] := by
        rw [recordsFor_update, updateSpot_records]
        simp [hb]
      have hb' : ((update deltaTime w).1.parkingSpots j).blinking = true := by
        obtain ⟨-, -, -, e4, -⟩ := updateSpot_fields j.val deltaTime (w.parkingSpots j)
        rw [update_spot, e4]
        simp [hs.1, hb]
      obtain ⟨h1, h2⟩ := ih (update deltaTime w).1 hb' hs.2
      constructor
      · show recordsFor j ((update deltaTime w).2 ++ (run rest (update deltaTime w).1).2) = []
        rw [recordsFor_append, hrec, h1]
        rfl
      · intro x hx
        simp only [tickTrace, List.mem_cons] at hx
        rcases hx with rfl | hx
        · simp [hrec]
        · exact h2 x hx
    · have hi' : ∀ deltaTime, i ≠ Input.tick deltaTime := fun d h => hi ⟨d, h⟩
      have hb' : ((step i w).1.parkingSpots j).blinking = true := by
        rw [step_blinking i w j hi' ho']
        exact hb
      obtain ⟨h1, h2⟩ := ih (step i w).1 hb' hs.2
      constructor
      · show recordsFor j ((step i w).2.2 ++ (run rest (step i w).1).2) = []
        rw [step_records i w hi', List.nil_append]
        exact h1
      · rw [tickTrace_cons j i rest w hi']
        exact h2

/-- While a spot is occupied and does not blink yet, the audit line is printed by the first
tick that leaves its timer at 0, and at most once. -/
theorem expiring_run (j : Fin (ROWS * COLUMNS)) :
    ∀ (inputs : List Input) (w : World), (w.parkingSpots j).blinking = false →
      staysOccupied j inputs w →
      (recordsFor j (run inputs w).2).length ≤ 1 ∧ firstExpiryOnly (tickTrace j inputs w) := by
  intro inputs
  induction inputs with
  | nil => intro w _ _; exact ⟨by simp [run, recordsFor], trivial⟩
  | cons i rest ih =>
    intro w hb hs
    have ho' := staysOccupied_head j rest _ hs.2
    by_cases hi : ∃ deltaTime, i = Input.tick deltaTime
    · obtain ⟨deltaTime, rfl⟩ := hi
      obtain ⟨-, e2, -, e4, -⟩ := updateSpot_fields j.val deltaTime (w.parkingSpots j)
      have hrun : (run (Input.tick deltaTime :: rest) w).2
          = (update deltaTime w).2 ++ (run rest (update deltaTime w).1).2 := rfl
      have htr : tickTrace j (Input.tick deltaTime :: rest) w
          = (((update deltaTime w).1.parkingSpots j).timer,
              (recordsFor j (update deltaTime w).2).length)
            :: tickTrace j rest (update deltaTime w).1 := rfl
      rw [hrun, htr, recordsFor_append, recordsFor_update, updateSpot_records, update_spot, e2]
      by_cases hexp : (w.parkingSpots j).timer - deltaTime ≤ 0
      · have hb' : ((update deltaTime w).1.parkingSpots j).blinking = true := by
          rw [update_spot, e4]
          simp [hs.1, hexp]
        obtain ⟨h1, h2⟩ := blinking_run j rest (update deltaTime w).1 hb' hs.2
        rw [h1]
        simp only [hs.1, hexp, hb, and_self, if_true, List.append_nil, List.length_singleton,
          le_refl, true_and, firstExpiryOnly]
        exact h2
      · have hb' : ((update deltaTime w).1.parkingSpots j).blinking = false := by
          rw [update_spot, e4]
          simp [hs.1, hexp, hb]
        obtain ⟨h1, h2⟩ := ih (update deltaTime w).1 hb' hs.2
        simp only [hs.1, hexp, false_and, and_false, if_false, if_true, List.nil_append,
          firstExpiryOnly, List.length_nil]
        exact ⟨h1, by rw [if_neg (fun h => hexp (le_of_eq h))]; exact ⟨trivial, h2⟩⟩
    · have hi' : ∀ deltaTime, i ≠ Input.tick deltaTime := fun d h => hi ⟨d, h⟩
      have hb' : ((step i w).1.parkingSpots j).blinking = false := by
        rw [step_blinking i w j hi' ho']
        exact hb
      obtain ⟨h1, h2⟩ := ih (step i w).1 hb' hs.2
      constructor
      · show (recordsFor j ((step i w).2.2 ++ (run rest (step i w).1).2)).length ≤ 1
        rw [step_records i w hi', List.nil_append]
        exact h1
      · rw [tickTrace_cons j i rest w hi']
        exact h2

theorem firstExpiryOnly_split :
    ∀ (l a : List (ℚ × Nat)) (t : ℚ) (n : Nat) (b : List (ℚ × Nat)),
      firstExpiryOnly l → l = a ++ (t, n) :: b →
      n ≤ 1 ∧ (n = 1 ↔ t = 0 ∧ ∀ x ∈ a, x.1 ≠ 0) := by
  intro l
  induction l with
  | nil => intro a t n b _ h; simp at h
  | cons x rest ih =>
    intro a t n b hl h
    cases a with
    | nil =>
      simp only [List.nil_append, List.cons.injEq] at h
      obtain ⟨rfl, rfl⟩ := h
      simp only [firstExpiryOnly] at hl
      by_cases ht : t = 0
      · rw [if_pos ht] at hl
        simp [hl.1, ht]
      · rw [if_neg ht] at hl
        simp [hl.1, ht]
    | cons y a =>
      simp only [List.cons_append, List.cons.injEq] at h
      obtain ⟨rfl, rfl⟩ := h
      simp only [firstExpiryOnly] at hl
      by_cases hx : x.1 = 0
      · rw [if_pos hx] at hl
        have hn : n = 0 := hl.2 (t, n) (by simp)
        simp [hn, hx]
      · rw [if_neg hx] at hl
        obtain ⟨h1, h2⟩ := ih a t n b hl.2 rfl
        refine ⟨h1, ?_⟩
        rw [h2]
        simp [hx]

/-- C9: a car parks on a vacant spot of a reachable state; as long as the spot stays
occupied (no Leave), whatever else happens (ticks, Renew, info toggles, other keys and
clicks), at most one audit line is printed for the spot, and a tick prints it exactly when
it is the first tick that leaves the timer of the spot at 0. -/
theorem audit_record_once (w : World) (hw : Reachable w) (row : Fin ROWS) (col : Fin COLUMNS)
    (inputs : List Input)
    (hv : (w.parkingSpots (spotIndex row col)).occupied = false)
    (hs : staysOccupied (spotIndex row col) inputs (handleParkingSpotEvent row col 0 w).1) :
    (recordsFor (spotIndex row col) (run inputs (handleParkingSpotEvent row col 0 w).1).2).length
        ≤ 1
    ∧ ∀ (a : List (ℚ × Nat)) (t : ℚ) (n : Nat) (b : List (ℚ × Nat)),
        tickTrace (spotIndex row col) inputs (handleParkingSpotEvent row col 0 w).1
            = a ++ (t, n) :: b →
          n ≤ 1 ∧ (n = 1 ↔ t = 0 ∧ ∀ x ∈ a, x.1 ≠ 0) := by
  have hnb : ((handleParkingSpotEvent row col 0 w).1.parkingSpots (spotIndex row col)).blinking
      = false := by
    have hb := ((reachable_spotInv w hw (spotIndex row col)).vacant hv).2.1
    rw [handleParkingSpotEvent_spot, handleSpot_blinking, hb]
    rw [← handleParkingSpotEvent_spot]
    exact staysOccupied_head _ inputs _ hs
  obtain ⟨h1, h2⟩ := expiring_run (spotIndex row col) inputs _ hnb hs
  exact ⟨h1, fun a t n b h => firstExpiryOnly_split _ a t n b h2 h⟩

theorem update_occupied (deltaTime : ℚ) (w : World) (j : Fin (ROWS * COLUMNS)) :
    ((update deltaTime w).1.parkingSpots j).occupied = (w.parkingSpots j).occupied := by
  rw [update_spot]
  exact (updateSpot_fields j.val deltaTime (w.parkingSpots j)).1

theorem renew_occupied (w : World) (row : Fin ROWS) (col : Fin COLUMNS)
    (ho : (w.parkingSpots (spotIndex row col)).occupied = true) :
    ((handleParkingSpotEvent row col GLFW_MOD_SHIFT w).1.parkingSpots
      (spotIndex row col)).occupied = true := by
  rw [handleParkingSpotEvent_spot, handleSpot_renew _ _ ho]
  exact ho

theorem sample_staysOccupied :
    staysOccupied (spotIndex 0 0)
      [Input.tick 20, Input.key 0 0 GLFW_MOD_SHIFT, Input.tick 20]
      (handleParkingSpotEvent 0 0 0 world0).1 := by
  have e : spotIndex 0 0 = 0 := rfl
  have h1 : (parkedWorld.parkingSpots (spotIndex 0 0)).occupied = true := by
    rw [e, parkedWorld_spot]; rfl
  have h2 : (((update 20 parkedWorld).1).parkingSpots (spotIndex 0 0)).occupied = true := by
    rw [update_occupied]; exact h1
  have h3 := renew_occupied (update 20 parkedWorld).1 0 0 h2
  have h4 : ((update 20 (handleParkingSpotEvent 0 0 GLFW_MOD_SHIFT
      (update 20 parkedWorld).1).1).1.parkingSpots (spotIndex 0 0)).occupied = true := by
    rw [update_occupied]; exact h3
  exact ⟨h1, h2, h3, h4⟩

/-- Witness of C9: a car parks on A1, its time expires, it is renewed and expires again;
one audit line at most is printed for A1. -/
theorem audit_record_once_witness :
    Reachable world0 ∧ (world0.parkingSpots (spotIndex 0 0)).occupied = false
      ∧ staysOccupied (spotIndex 0 0)
          [Input.tick 20, Input.key 0 0 GLFW_MOD_SHIFT, Input.tick 20]
          (handleParkingSpotEvent 0 0 0 world0).1
      ∧ (recordsFor (spotIndex 0 0)
          (run [Input.tick 20, Input.key 0 0 GLFW_MOD_SHIFT, Input.tick 20]
            (handleParkingSpotEvent 0 0 0 world0).1).2).length ≤ 1 :=
  ⟨reachable_world0, rfl, sample_staysOccupied,
    (audit_record_once world0 reachable_world0 0 0 _ rfl sample_staysOccupied).1⟩

/-! ## The blink timer -/

theorem updateSpot_blink (i : Nat) (deltaTime : ℚ) (spot : ParkingSpot) :
    ((updateSpot i deltaTime spot).1.blinkTimer
      = if (updateSpot i deltaTime spot).1.blinking = true then
          (if spot.blinkTimer + deltaTime ≥ 1 / 2 then 0 else spot.blinkTimer + deltaTime)
        else spot.blinkTimer) ∧
    ((updateSpot i deltaTime spot).1.blinkColor
      = if (updateSpot i deltaTime spot).1.blinking = true
            ∧ spot.blinkTimer + deltaTime ≥ 1 / 2 then
          (spot.blinkColor.1, spot.blinkColor.2.1, if spot.blinkColor.2.2 = 1 then 0 else 1)
        else spot.blinkColor) := by
  unfold updateSpot
  simp only []
  split_ifs <;> simp_all <;> (exfalso; linarith)

theorem blinkInv_updateSpot (i : Nat) (deltaTime : ℚ) (spot : ParkingSpot)
    (h : BlinkInv spot) : BlinkInv (updateSpot i deltaTime spot).1 := by
  obtain ⟨e1, e2⟩ := updateSpot_blink i deltaTime spot
  obtain ⟨h1, h2⟩ := h
  constructor
  · rw [e1]
    split_ifs with ha hb
    · norm_num
    · exact lt_of_not_ge hb
    · exact h1
  · rw [e2]
    split_ifs with ha hb
    · left; rfl
    · right; rfl
    · exact h2

theorem reachable_blinkInv (w : World) (hw : Reachable w) (j : Fin (ROWS * COLUMNS)) :
    BlinkInv (w.parkingSpots j) := by
  refine reachable_spots BlinkInv ?_ ?_ ?_ ?_ ?_ w hw j
  · constructor
    · show (0 : ℚ) < 1 / 2
      norm_num
    · right; rfl
  · intro mods g spot h
    unfold handleSpot
    split_ifs <;> exact h
  · intro xpos ypos x y cellWidth cellHeight spot h
    unfold clickSpot
    simp only []
    split_ifs <;> exact h
  · intro spot h
    unfold renderSpot
    split_ifs <;> exact h
  · intro i deltaTime spot _ h
    exact blinkInv_updateSpot i deltaTime spot h

/-- C11: in every reachable state, after `update` returns, for any `deltaTime`, every spot
has `blinkTimer < 0.5`; when the spot blinks and `blinkTimer + deltaTime` reaches 0.5, the
third component of `blinkColor` is toggled between 1 and 0 and `blinkTimer` is 0, whatever
the overshoot. -/
theorem blinkTimer_below_half (w : World) (hw : Reachable w) (deltaTime : ℚ)
    (j : Fin (ROWS * COLUMNS)) :
    ((update deltaTime w).1.parkingSpots j).blinkTimer < 1 / 2
    ∧ (((update deltaTime w).1.parkingSpots j).blinking = true →
        (w.parkingSpots j).blinkTimer + deltaTime ≥ 1 / 2 →
        ((update deltaTime w).1.parkingSpots j).blinkTimer = 0
        ∧ (((w.parkingSpots j).blinkColor.2.2 = 1 →
            ((update deltaTime w).1.parkingSpots j).blinkColor.2.2 = 0)
          ∧ ((w.parkingSpots j).blinkColor.2.2 = 0 →
            ((update deltaTime w).1.parkingSpots j).blinkColor.2.2 = 1)))
    ∧ ((w.parkingSpots j).blinkColor.2.2 = 0 ∨ (w.parkingSpots j).blinkColor.2.2 = 1) := by
  have hinv := reachable_blinkInv w hw j
  have hinv' := blinkInv_updateSpot j.val deltaTime _ hinv
  obtain ⟨e1, e2⟩ := updateSpot_blink j.val deltaTime (w.parkingSpots j)
  rw [update_spot]
  refine ⟨hinv'.1, ?_, hinv.2⟩
  intro hb hge
  rw [e1, e2, if_pos hb, if_pos hge, if_pos ⟨hb, hge⟩]
  refine ⟨rfl, ?_, ?_⟩
  · intro h1
    show (if (w.parkingSpots j).blinkColor.2.2 = 1 then (0 : ℚ) else 1) = 0
    rw [if_pos h1]
  · intro h0
    show (if (w.parkingSpots j).blinkColor.2.2 = 1 then (0 : ℚ) else 1) = 1
    rw [if_neg (by rw [h0]; norm_num)]

/-- Witness of C11: the parked A1 and a tick of 50 seconds, far beyond the half second. -/
theorem blinkTimer_below_half_witness :
    Reachable parkedWorld ∧ ((update 50 parkedWorld).1.parkingSpots 0).blinkTimer < 1 / 2 :=
  ⟨reachable_parkedWorld, (blinkTimer_below_half parkedWorld reachable_parkedWorld 50 0).1⟩

/-! ## The title animation -/

theorem update_title (deltaTime : ℚ) (w : World) :
    (update deltaTime w).1.titleTextTransitionProgress
        = (updateTitle deltaTime w).titleTextTransitionProgress
    ∧ (update deltaTime w).1.reverseTransition = (updateTitle deltaTime w).reverseTransition
    ∧ (update deltaTime w).1.displayParking = (updateTitle deltaTime w).displayParking := by
  simp only [update, updateTitle]
  split_ifs <;> exact ⟨rfl, rfl, rfl⟩

theorem updateTitle_fields (deltaTime : ℚ) (w : World) :
    ((updateTitle deltaTime w).titleTextTransitionProgress
      = if (if w.reverseTransition = true then
              w.titleTextTransitionProgress - deltaTime / titleTransitionDuration
            else w.titleTextTransitionProgress + deltaTime / titleTransitionDuration) ≥ 1
        then 1
        else if (if w.reverseTransition = true then
              w.titleTextTransitionProgress - deltaTime / titleTransitionDuration
            else w.titleTextTransitionProgress + deltaTime / titleTransitionDuration) ≤ 0
        then 0
        else (if w.reverseTransition = true then
              w.titleTextTransitionProgress - deltaTime / titleTransitionDuration
            else w.titleTextTransitionProgress + deltaTime / titleTransitionDuration))
    ∧ ((updateTitle deltaTime w).reverseTransition
      = if (if w.reverseTransition = true then
              w.titleTextTransitionProgress - deltaTime / titleTransitionDuration
            else w.titleTextTransitionProgress + deltaTime / titleTransitionDuration) ≥ 1
        then true
        else if (if w.reverseTransition = true then
              w.titleTextTransitionProgress - deltaTime / titleTransitionDuration
            else w.titleTextTransitionProgress + deltaTime / titleTransitionDuration) ≤ 0
        then false
        else w.reverseTransition)
    ∧ ((updateTitle deltaTime w).displayParking
      = if (if w.reverseTransition = true then
              w.titleTextTransitionProgress - deltaTime / titleTransitionDuration
            else w.titleTextTransitionProgress + deltaTime / titleTransitionDuration) ≥ 1
        then w.displayParking
        else if (if w.reverseTransition = true then
              w.titleTextTransitionProgress - deltaTime / titleTransitionDuration
            else w.titleTextTransitionProgress + deltaTime / titleTransitionDuration) ≤ 0
        then !w.displayParking
        else w.displayParking) := by
  simp only [updateTitle]
  split_ifs <;> exact ⟨rfl, rfl, rfl⟩


/-- C12: after `update`, for any `deltaTime`, `titleTextTransitionProgress` lies in
`[0, 1]`; when the stepped progress reaches 1 or more it is clamped to 1 and
`reverseTransition` is set, and when it reaches 0 or less it is clamped to 0 and
`reverseTransition` is cleared.  This holds from every title state, so in particular from
those with progress in `[0, 1]`. -/
theorem title_progress_clamped (w : World) (deltaTime : ℚ) :
    (0 ≤ (update deltaTime w).1.titleTextTransitionProgress
      ∧ (update deltaTime w).1.titleTextTransitionProgress ≤ 1)
    ∧ ((if w.reverseTransition = true then
          w.titleTextTransitionProgress - deltaTime / titleTransitionDuration
        else w.titleTextTransitionProgress + deltaTime / titleTransitionDuration) ≥ 1 →
      (update deltaTime w).1.titleTextTransitionProgress = 1
        ∧ (update deltaTime w).1.reverseTransition = true)
    ∧ ((if w.reverseTransition = true then
          w.titleTextTransitionProgress - deltaTime / titleTransitionDuration
        else w.titleTextTransitionProgress + deltaTime / titleTransitionDuration) ≤ 0 →
      (update deltaTime w).1.titleTextTransitionProgress = 0
        ∧ (update deltaTime w).1.reverseTransition = false) := by
  obtain ⟨u1, u2, -⟩ := update_title deltaTime w
  obtain ⟨t1, t2, -⟩ := updateTitle_fields deltaTime w
  rw [u1, u2, t1, t2]
  refine ⟨?_, ?_, ?_⟩
  · split_ifs <;> constructor <;> linarith
  · intro h
    rw [if_pos h, if_pos h]
    exact ⟨rfl, rfl⟩
  · intro h
    have h1 : ¬ ((if w.reverseTransition = true then
          w.titleTextTransitionProgress - deltaTime / titleTransitionDuration
        else w.titleTextTransitionProgress + deltaTime / titleTransitionDuration) ≥ 1) := by
      intro h'
      linarith
    rw [if_neg h1, if_pos h, if_neg h1, if_pos h]
    exact ⟨rfl, rfl⟩

/-- C13 as stated fails: in the initial state the progress is 0 and moves forward; a tick
with `deltaTime = 0` leaves it at 0, and `update` flips `displayParking`. -/
theorem forward_tick_flips_text :
    Reachable world0
      ∧ (0 ≤ world0.titleTextTransitionProgress ∧ world0.titleTextTransitionProgress ≤ 1)
      ∧ world0.reverseTransition = false
      ∧ world0.displayParking = true
      ∧ (update 0 world0).1.displayParking = false := by
  refine ⟨reachable_world0, ⟨le_refl _, ?_⟩, rfl, rfl, ?_⟩
  · show (0 : ℚ) ≤ 1
    norm_num
  · rw [(update_title 0 world0).2.2, (updateTitle_fields 0 world0).2.2]
    show (if (if false = true then (0 : ℚ) - 0 / titleTransitionDuration
            else 0 + 0 / titleTransitionDuration) ≥ 1 then true
          else if (if false = true then (0 : ℚ) - 0 / titleTransitionDuration
            else 0 + 0 / titleTransitionDuration) ≤ 0 then !true else true) = false
    norm_num

/-- C13, amended: from a title state with progress at least 0, so from every one with
progress in `[0, 1]`, a tick with
`deltaTime ≥ 0` flips `displayParking` exactly when the progress reaches 0 or less in that
tick, that is when it was moving in reverse and `progress - deltaTime / 3 ≤ 0`, or when it
was moving forward with progress 0 and `deltaTime = 0`; a flip is a single negation; with
`deltaTime > 0` the text is not flipped in a tick where the progress was moving forward,
and it is never flipped in a tick where the progress reaches 1 or more. -/
theorem title_text_flip (w : World) (deltaTime : ℚ)
    (h0 : 0 ≤ w.titleTextTransitionProgress) (hd : 0 ≤ deltaTime) :
    ((update deltaTime w).1.displayParking ≠ w.displayParking ↔
      (w.reverseTransition = true
          ∧ w.titleTextTransitionProgress - deltaTime / titleTransitionDuration ≤ 0)
        ∨ (w.reverseTransition = false ∧ w.titleTextTransitionProgress = 0 ∧ deltaTime = 0))
    ∧ ((update deltaTime w).1.displayParking ≠ w.displayParking →
      (update deltaTime w).1.displayParking = !w.displayParking)
    ∧ (0 < deltaTime → w.reverseTransition = false →
      (update deltaTime w).1.displayParking = w.displayParking)
    ∧ ((if w.reverseTransition = true then
          w.titleTextTransitionProgress - deltaTime / titleTransitionDuration
        else w.titleTextTransitionProgress + deltaTime / titleTransitionDuration) ≥ 1 →
      (update deltaTime w).1.displayParking = w.displayParking) := by
  obtain ⟨-, -, u3⟩ := update_title deltaTime w
  obtain ⟨-, -, t3⟩ := updateTitle_fields deltaTime w
  have h3 : titleTransitionDuration = 3 := rfl
  have hneg : (!w.displayParking) ≠ w.displayParking := by
    cases w.displayParking <;> decide
  rw [u3, t3, h3]
  cases hr : w.reverseTransition
  · -- moving forward
    simp only [Bool.false_eq_true, if_false, false_and, false_or, true_and]
    refine ⟨?_, ?_, ?_, ?_⟩
    · constructor
      · intro hflip
        have hle : w.titleTextTransitionProgress + deltaTime / 3 ≤ 0 := by
          by_contra hc
          apply hflip
          split_ifs <;> rfl
        constructor <;> linarith
      · rintro ⟨hp, hdz⟩
        have hge : ¬ (w.titleTextTransitionProgress + deltaTime / 3 ≥ 1) := by
          rw [hp, hdz]; norm_num
        have hle : w.titleTextTransitionProgress + deltaTime / 3 ≤ 0 := by
          rw [hp, hdz]; norm_num
        rw [if_neg hge, if_pos hle]
        exact hneg
    · intro hflip
      split_ifs at hflip ⊢ <;> first | rfl | exact absurd rfl hflip
    · intro hpos _
      have hgt : ¬ (w.titleTextTransitionProgress + deltaTime / 3 ≤ 0) := by
        intro hc
        linarith
      split_ifs <;> rfl
    · intro hge
      rw [if_pos hge]
  · -- moving in reverse
    simp only [if_true, true_and, Bool.true_eq_false, false_and, or_false]
    refine ⟨?_, ?_, ?_, ?_⟩
    · constructor
      · intro hflip
        by_contra hc
        apply hflip
        split_ifs <;> rfl
      · intro hle
        have hge : ¬ (w.titleTextTransitionProgress - deltaTime / 3 ≥ 1) := by
          intro hc
          linarith
        rw [if_neg hge, if_pos hle]
        exact hneg
    · intro hflip
      split_ifs at hflip ⊢ <;> first | rfl | exact absurd rfl hflip
    · intro _ hfalse
      exact absurd hfalse (by decide)
    · intro hge
      rw [if_pos hge]

theorem world0_after_three_seconds :
    (update 3 world0).1.titleTextTransitionProgress = 1
      ∧ (update 3 world0).1.reverseTransition = true := by
  have hstep : (if world0.reverseTransition = true then
        world0.titleTextTransitionProgress - 3 / titleTransitionDuration
      else world0.titleTextTransitionProgress + 3 / titleTransitionDuration) ≥ 1 := by
    show (if false = true then (0 : ℚ) - 3 / 3 else 0 + 3 / 3) ≥ 1
    norm_num
  rw [(update_title 3 world0).1, (update_title 3 world0).2.1,
    (updateTitle_fields 3 world0).1, (updateTitle_fields 3 world0).2.1, if_pos hstep,
    if_pos hstep]
  exact ⟨rfl, rfl⟩

/-- Witness of C13, amended: the title state after the first three seconds (progress 1,
moving in reverse) and a tick of three seconds: the text is flipped. -/
theorem title_text_flip_witness :
    0 ≤ (update 3 world0).1.titleTextTransitionProgress ∧ (0 : ℚ) ≤ 3
    ∧ (update 3 world0).1.reverseTransition = true
    ∧ (update 3 (update 3 world0).1).1.displayParking ≠ (update 3 world0).1.displayParking :=
  have hc := world0_after_three_seconds
  have hb : 0 ≤ (update 3 world0).1.titleTextTransitionProgress := by
    rw [hc.1]; norm_num
  ⟨hb, by norm_num, hc.2,
    (title_text_flip (update 3 world0).1 3 hb (by norm_num)).1.mpr
      (Or.inl ⟨hc.2, by rw [hc.1]; show (1 : ℚ) - 3 / 3 ≤ 0; norm_num⟩)⟩

/-! ## Resizing the viewport -/

theorem mouseButtonCallback_viewport (button action : Int) (xpos ypos : ℚ) (w : World) :
    (mouseButtonCallback button action xpos ypos w).1.CELL_WIDTH = w.CELL_WIDTH
      ∧ (mouseButtonCallback button action xpos ypos w).1.CELL_HEIGHT = w.CELL_HEIGHT := by
  unfold mouseButtonCallback
  split_ifs <;> exact ⟨rfl, rfl⟩

theorem reachable_cell (w : World) (hw : Reachable w) :
    w.CELL_WIDTH = (1400 : ℚ) / (11 / 2) ∧ w.CELL_HEIGHT = (1400 : ℚ) / (11 / 2) * (7 / 5) := by
  induction hw with
  | init g => exact ⟨rfl, rfl⟩
  | step i w _ _ ih =>
    cases i with
    | key row col mods => exact ih
    | mouse button action xpos ypos =>
      obtain ⟨h1, h2⟩ := mouseButtonCallback_viewport button action xpos ypos w
      simp only [step]
      rw [h1, h2]
      exact ih
    | resize width height => exact ih
    | tick deltaTime =>
      obtain ⟨-, -, h1, h2⟩ := update_viewport deltaTime w
      simp only [step]
      rw [h1, h2]
      exact ih
    | draw => exact ih

/-- C19 as stated fails: after a resize of the initial viewport to 1100 by 800 the cell
width is still `1400 / 5.5` and not `1100 / 5.5`, and the cell height is still 1.4 times
the old cell width. -/
theorem resize_keeps_cell_size :
    (framebufferSizeCallback 1100 800 world0).WIDTH = 1100
      ∧ (framebufferSizeCallback 1100 800 world0).CELL_WIDTH ≠ (1100 : ℚ) / (11 / 2)
      ∧ (framebufferSizeCallback 1100 800 world0).CELL_HEIGHT
          ≠ (1100 : ℚ) / (11 / 2) * (7 / 5)
      ∧ (framebufferSizeCallback 1100 800 world0).CELL_WIDTH = (1400 : ℚ) / (11 / 2) := by
  refine ⟨rfl, ?_, ?_, rfl⟩
  · show (1400 : ℚ) / (11 / 2) ≠ 1100 / (11 / 2)
    norm_num
  · show (1400 : ℚ) / (11 / 2) * (7 / 5) ≠ 1100 / (11 / 2) * (7 / 5)
    norm_num

/-- C19, amended: `framebufferSizeCallback(width, height)` stores the new `WIDTH` and
`HEIGHT` and leaves the cell dimensions alone; in every reachable state, so after every
resize, the cell width is the start-up value `1400 / 5.5` and the cell height is 1.4 times
that. -/
theorem resize_sets_viewport_only (w : World) (hw : Reachable w) (width height : Int) :
    (framebufferSizeCallback width height w).WIDTH = width
    ∧ (framebufferSizeCallback width height w).HEIGHT = height
    ∧ (framebufferSizeCallback width height w).CELL_WIDTH = w.CELL_WIDTH
    ∧ (framebufferSizeCallback width height w).CELL_HEIGHT = w.CELL_HEIGHT
    ∧ (framebufferSizeCallback width height w).CELL_WIDTH = (1400 : ℚ) / (11 / 2)
    ∧ (framebufferSizeCallback width height w).CELL_HEIGHT
        = (7 / 5) * (framebufferSizeCallback width height w).CELL_WIDTH := by
  obtain ⟨h1, h2⟩ := reachable_cell w hw
  refine ⟨rfl, rfl, rfl, rfl, h1, ?_⟩
  show w.CELL_HEIGHT = (7 / 5) * w.CELL_WIDTH
  rw [h1, h2]
  ring

/-- Witness of C19, amended: the state after A1 expired, resized to 1100 by 800. -/
theorem resize_sets_viewport_only_witness :
    Reachable expiredWorld
      ∧ (framebufferSizeCallback 1100 800 expiredWorld).WIDTH = 1100
      ∧ (framebufferSizeCallback 1100 800 expiredWorld).CELL_WIDTH = (1400 : ℚ) / (11 / 2) :=
  ⟨reachable_expiredWorld,
    (resize_sets_viewport_only expiredWorld reachable_expiredWorld 1100 800).1,
    (resize_sets_viewport_only expiredWorld reachable_expiredWorld 1100 800).2.2.2.2.1⟩

/-! ## Frames add up -/

theorem run_ticks (j : Fin (ROWS * COLUMNS)) :
    ∀ (ds : List ℚ) (w : World), (∀ d ∈ ds, 0 ≤ d) → (w.parkingSpots j).occupied = true →
      (((run (ds.map Input.tick) w).1.parkingSpots j).occupied = true)
      ∧ (((run (ds.map Input.tick) w).1.parkingSpots j).timer
          = max 0 ((w.parkingSpots j).timer - ds.sum) ∨
        (ds = [] ∧ ((run (ds.map Input.tick) w).1.parkingSpots j).timer
          = (w.parkingSpots j).timer))
      ∧ (ds ≠ [] → ((run (ds.map Input.tick) w).1.parkingSpots j).redProgress
          = 1 - ((run (ds.map Input.tick) w).1.parkingSpots j).timer / 20)
      ∧ (ds ≠ [] → (w.parkingSpots j).timer - ds.sum ≤ 0 →
          ((run (ds.map Input.tick) w).1.parkingSpots j).blinking = true) := by
  intro ds
  induction ds with
  | nil => intro w _ ho; exact ⟨ho, Or.inr ⟨rfl, rfl⟩, fun h => absurd rfl h, fun h => absurd rfl h⟩
  | cons d rest ih =>
    intro w hpos ho
    have hd : 0 ≤ d := hpos d (List.mem_cons_self _ _)
    have hrest : ∀ x ∈ rest, 0 ≤ x := fun x hx => hpos x (List.mem_cons_of_mem _ hx)
    have hsum : 0 ≤ rest.sum := List.sum_nonneg hrest
    obtain ⟨e1, e2, e3, e4, -⟩ := updateSpot_fields j.val d (w.parkingSpots j)
    have hrun : (run ((d :: rest).map Input.tick) w).1
        = (run (rest.map Input.tick) (update d w).1).1 := rfl
    have ho1 : ((update d w).1.parkingSpots j).occupied = true := by
      rw [update_spot, e1]; exact ho
    have ht1 : ((update d w).1.parkingSpots j).timer
        = if (w.parkingSpots j).timer - d ≤ 0 then 0 else (w.parkingSpots j).timer - d := by
      rw [update_spot, e2, if_pos ho]
    have hp1 : ((update d w).1.parkingSpots j).redProgress
        = 1 - ((update d w).1.parkingSpots j).timer / 20 := by
      rw [update_spot, e3, if_pos ho]
    have hb1 : (w.parkingSpots j).timer - d ≤ 0 →
        ((update d w).1.parkingSpots j).blinking = true := by
      intro hle
      rw [update_spot, e4, if_pos ho, if_pos hle]
    obtain ⟨i1, i2, i3, i4⟩ := ih (update d w).1 hrest ho1
    rw [hrun, List.sum_cons]
    refine ⟨i1, Or.inl ?_, fun _ => ?_, fun _ hle => ?_⟩
    · rcases i2 with i2 | ⟨hnil, i2⟩
      · rw [i2, ht1]
        split_ifs with hc
        · rw [max_eq_left (by linarith), max_eq_left (by linarith)]
        · congr 1
          ring
      · subst hnil
        rw [i2, ht1]
        simp only [List.sum_nil, add_zero]
        split_ifs with hc
        · rw [max_eq_left hc]
        · rw [max_eq_right (by linarith)]
    · by_cases hnil : rest = []
      · subst hnil
        exact hp1
      · exact i3 hnil
    · by_cases hnil : rest = []
      · subst hnil
        simp only [List.sum_nil, add_zero] at hle
        exact hb1 hle
      · apply i4 hnil
        rw [ht1]
        split_ifs with hc <;> linarith

/-- C20: a spot was just parked or renewed (occupied, `timer = 20`); after a non-empty
sequence of ticks with deltas `d1 .. dn ≥ 0` and nothing in between, `timer` is
`max(0, 20 - (d1 + ... + dn))`, `redProgress` is `min(1, (d1 + ... + dn) / 20)`, and
`blinking` is true when the deltas add up to 20 or more.  So `timer` and `redProgress`
depend on the sum of the deltas only. -/
theorem ticks_depend_on_sum (w : World) (j : Fin (ROWS * COLUMNS)) (ds : List ℚ)
    (hne : ds ≠ []) (hpos : ∀ d ∈ ds, 0 ≤ d)
    (ho : (w.parkingSpots j).occupied = true) (ht : (w.parkingSpots j).timer = 20) :
    ((run (ds.map Input.tick) w).1.parkingSpots j).timer = max 0 (20 - ds.sum)
    ∧ ((run (ds.map Input.tick) w).1.parkingSpots j).redProgress = min 1 (ds.sum / 20)
    ∧ (ds.sum ≥ 20 → ((run (ds.map Input.tick) w).1.parkingSpots j).blinking = true) := by
  obtain ⟨-, h2, h3, h4⟩ := run_ticks j ds w hpos ho
  have htimer : ((run (ds.map Input.tick) w).1.parkingSpots j).timer
      = max 0 (20 - ds.sum) := by
    rcases h2 with h2 | ⟨hnil, -⟩
    · rw [h2, ht]
    · exact absurd hnil hne
  refine ⟨htimer, ?_, ?_⟩
  · rw [h3 hne, htimer]
    rcases le_total (20 - ds.sum) 0 with hc | hc
    · rw [max_eq_left hc, min_eq_left (by linarith)]
      norm_num
    · rw [max_eq_right hc, min_eq_right (by linarith)]
      ring
  · intro hge
    apply h4 hne
    rw [ht]
    linarith

/-- Witness of C20: A1 right after Park; ticks of 5 and 15 seconds leave `timer = 0`. -/
theorem ticks_depend_on_sum_witness :
    (parkedWorld.parkingSpots 0).occupied = true ∧ (parkedWorld.parkingSpots 0).timer = 20
      ∧ ((run ([5, 15].map Input.tick) parkedWorld).1.parkingSpots 0).timer
          = max 0 (20 - ([5, 15] : List ℚ).sum)
      ∧ ((run ([5, 15].map Input.tick) parkedWorld).1.parkingSpots 0).redProgress
          = min 1 (([5, 15] : List ℚ).sum / 20) :=
  have ho : (parkedWorld.parkingSpots 0).occupied = true := by rw [parkedWorld_spot]; rfl
  have ht : (parkedWorld.parkingSpots 0).timer = 20 := by rw [parkedWorld_spot]; rfl
  have h := ticks_depend_on_sum parkedWorld 0 [5, 15] (by simp)
    (by intro d hd; simp at hd; rcases hd with rfl | rfl <;> norm_num) ho ht
  ⟨ho, ht, h.1, h.2.1⟩


/-! ## The hit regions are disjoint -/

theorem sq_bound (a b : ℚ) (h : a ^ 2 + b ^ 2 ≤ (37 : ℚ) ^ 2) : -37 ≤ a ∧ a ≤ 37 := by
  have hb : 0 ≤ b ^ 2 := sq_nonneg b
  constructor
  · by_contra hc
    have : a < -37 := lt_of_not_ge hc
    nlinarith
  · by_contra hc
    have : 37 < a := lt_of_not_ge hc
    nlinarith

theorem inIndicator_bounds (xpos ypos x y cellHeight : ℚ)
    (h : inIndicator xpos ypos x y cellHeight) :
    (x - 87 ≤ xpos ∧ xpos ≤ x - 13)
      ∧ (y + cellHeight / 2 - 72 ≤ ypos ∧ ypos ≤ y + cellHeight / 2 + 2) := by
  unfold inIndicator parkingSpotDistance at h
  obtain ⟨h1, h2⟩ := sq_bound _ _ h
  obtain ⟨h3, h4⟩ := sq_bound _ _ (by rw [add_comm]; exact h)
  refine ⟨⟨?_, ?_⟩, ⟨?_, ?_⟩⟩ <;> linarith

/-- The indicator circle and the car rectangle of one spot have no point in common. -/
theorem indicator_car_disjoint (xpos ypos x y cellWidth cellHeight : ℚ) :
    ¬ (inIndicator xpos ypos x y cellHeight ∧ inCar xpos ypos x y cellWidth cellHeight) := by
  rintro ⟨h1, h2⟩
  obtain ⟨⟨-, ha⟩, -⟩ := inIndicator_bounds _ _ _ _ _ h1
  have hb := h2.1.1
  linarith

theorem hitsSpot_bounds (w : World) (row : Fin ROWS) (col : Fin COLUMNS) (xpos ypos : ℚ)
    (hcw : w.CELL_WIDTH = (1400 : ℚ) / (11 / 2))
    (hch : w.CELL_HEIGHT = (1400 : ℚ) / (11 / 2) * (7 / 5))
    (h : hitsSpot w row col xpos ypos) :
    (spotX w col - 87 ≤ xpos ∧ xpos ≤ spotX w col + 1700 / 11)
      ∧ (spotY w row + 20 ≤ ypos ∧ ypos ≤ spotY w row + 2820 / 11) := by
  rcases h with h | h
  · obtain ⟨⟨h1, h2⟩, ⟨h3, h4⟩⟩ := inIndicator_bounds _ _ _ _ _ h
    rw [hch] at h3 h4
    refine ⟨⟨h1, ?_⟩, ⟨?_, ?_⟩⟩
    · linarith
    · norm_num at h3 ⊢; linarith
    · norm_num at h4 ⊢; linarith
  · unfold inCar parkingSpotDistance at h
    rw [hcw, hch] at h
    obtain ⟨⟨h1, h2⟩, ⟨h3, h4⟩⟩ := h
    refine ⟨⟨by linarith, ?_⟩, ⟨h3, ?_⟩⟩
    · norm_num at h2 ⊢; linarith
    · norm_num at h4 ⊢; linarith

theorem spotX_eq (w : World) (col : Fin COLUMNS) :
    spotX w col = (col.val : ℚ) * (w.CELL_WIDTH + 100) + (horizontalOffset w + 30) := by
  unfold spotX additionalHorizontalSpacing parkingSpotDistance
  ring

theorem spotY_eq (w : World) (row : Fin ROWS) :
    spotY w row = (1 - (row.val : ℚ)) * w.CELL_HEIGHT
      + (verticalOffset w
          - if w.HEIGHT < 750 then (((745 - w.HEIGHT).tdiv 2 : Int) : ℚ) else 0) := by
  unfold spotY
  simp only []
  split_ifs <;> push_cast <;> ring

/-- A click hits the regions of one spot at most. -/
theorem hitsSpot_unique (w : World) (xpos ypos : ℚ)
    (hcw : w.CELL_WIDTH = (1400 : ℚ) / (11 / 2))
    (hch : w.CELL_HEIGHT = (1400 : ℚ) / (11 / 2) * (7 / 5))
    (r1 r2 : Fin ROWS) (c1 c2 : Fin COLUMNS)
    (h1 : hitsSpot w r1 c1 xpos ypos) (h2 : hitsSpot w r2 c2 xpos ypos) :
    r1 = r2 ∧ c1 = c2 := by
  obtain ⟨⟨a1, a2⟩, ⟨a3, a4⟩⟩ := hitsSpot_bounds w r1 c1 xpos ypos hcw hch h1
  obtain ⟨⟨b1, b2⟩, ⟨b3, b4⟩⟩ := hitsSpot_bounds w r2 c2 xpos ypos hcw hch h2
  rw [spotX_eq, hcw] at a1 a2 b1 b2
  rw [spotY_eq, hch] at a3 a4 b3 b4
  constructor
  · apply Fin.ext
    rcases lt_trichotomy r1.val r2.val with hlt | heq | hgt
    · exfalso
      have hc : (r1.val : ℚ) + 1 ≤ (r2.val : ℚ) := by exact_mod_cast hlt
      norm_num at a3 a4 b3 b4
      linarith
    · exact heq
    · exfalso
      have hc : (r2.val : ℚ) + 1 ≤ (r1.val : ℚ) := by exact_mod_cast hgt
      norm_num at a3 a4 b3 b4
      linarith
  · apply Fin.ext
    rcases lt_trichotomy c1.val c2.val with hlt | heq | hgt
    · exfalso
      have hc : (c1.val : ℚ) + 1 ≤ (c2.val : ℚ) := by exact_mod_cast hlt
      norm_num at a1 a2 b1 b2
      linarith
    · exact heq
    · exfalso
      have hc : (c2.val : ℚ) + 1 ≤ (c1.val : ℚ) := by exact_mod_cast hgt
      norm_num at a1 a2 b1 b2
      linarith

theorem clickSpot_changes (xpos ypos x y cellWidth cellHeight : ℚ) (spot : ParkingSpot)
    (h : ¬ (inIndicator xpos ypos x y cellHeight ∨ inCar xpos ypos x y cellWidth cellHeight)) :
    clickSpot xpos ypos x y cellWidth cellHeight spot = (spot, []) := by
  unfold clickSpot
  simp only []
  split_ifs with h1 h2
  · exact absurd (Or.inl h1.2) h
  · exact absurd (Or.inr h2.2) h
  · rfl

theorem changed_hitsSpot (button action : Int) (xpos ypos : ℚ) (w : World)
    (row : Fin ROWS) (col : Fin COLUMNS)
    (h : (mouseButtonCallback button action xpos ypos w).1.parkingSpots (spotIndex row col)
      ≠ w.parkingSpots (spotIndex row col)) :
    hitsSpot w row col xpos ((w.HEIGHT : ℚ) - ypos) := by
  by_contra hc
  apply h
  rw [mouseButtonCallback_spot]
  split_ifs
  · rw [clickSpot_changes _ _ _ _ _ _ _ hc]
  · rfl

/-- C15: with the cell dimensions of the program (`1400 / 5.5` wide and 1.4 times that
high), for every grid, viewport size and click position, a click changes one spot at most:
a click lies in the hit regions of at most one spot, the circle and the rectangle of one
spot are disjoint, and a spot whose regions are not hit is not changed. -/
theorem click_changes_one_spot (w : World) (button action : Int) (xpos ypos : ℚ)
    (hcw : w.CELL_WIDTH = (1400 : ℚ) / (11 / 2))
    (hch : w.CELL_HEIGHT = (1400 : ℚ) / (11 / 2) * (7 / 5)) :
    (∀ j1 j2 : Fin (ROWS * COLUMNS),
      (mouseButtonCallback button action xpos ypos w).1.parkingSpots j1 ≠ w.parkingSpots j1 →
      (mouseButtonCallback button action xpos ypos w).1.parkingSpots j2 ≠ w.parkingSpots j2 →
      j1 = j2)
    ∧ (∀ (x y : ℚ) (r1 r2 : Fin ROWS) (c1 c2 : Fin COLUMNS),
      hitsSpot w r1 c1 x y → hitsSpot w r2 c2 x y → r1 = r2 ∧ c1 = c2)
    ∧ (∀ (x y : ℚ) (row : Fin ROWS) (col : Fin COLUMNS),
      ¬ (inIndicator x y (spotX w col) (spotY w row) w.CELL_HEIGHT
        ∧ inCar x y (spotX w col) (spotY w row) w.CELL_WIDTH w.CELL_HEIGHT)) := by
  refine ⟨?_, ?_, ?_⟩
  · intro j1 j2 h1 h2
    obtain ⟨r1, c1, rfl⟩ := spotIndex_surj j1
    obtain ⟨r2, c2, rfl⟩ := spotIndex_surj j2
    obtain ⟨hr, hc⟩ := hitsSpot_unique w xpos _ hcw hch r1 r2 c1 c2
      (changed_hitsSpot _ _ _ _ _ _ _ h1) (changed_hitsSpot _ _ _ _ _ _ _ h2)
    rw [hr, hc]
  · intro x y r1 r2 c1 c2 h1 h2
    exact hitsSpot_unique w x y hcw hch r1 r2 c1 c2 h1 h2
  · intro x y row col
    exact indicator_car_disjoint _ _ _ _ _ _

/-- Witness of C15: the left click on the indicator of the expired A1. -/
theorem click_changes_one_spot_witness :
    expiredWorld.CELL_WIDTH = (1400 : ℚ) / (11 / 2)
      ∧ expiredWorld.CELL_HEIGHT = (1400 : ℚ) / (11 / 2) * (7 / 5)
      ∧ ∀ j1 j2 : Fin (ROWS * COLUMNS),
        (mouseButtonCallback GLFW_MOUSE_BUTTON_LEFT GLFW_PRESS (2180 / 11) (2825 / 11)
          expiredWorld).1.parkingSpots j1 ≠ expiredWorld.parkingSpots j1 →
        (mouseButtonCallback GLFW_MOUSE_BUTTON_LEFT GLFW_PRESS (2180 / 11) (2825 / 11)
          expiredWorld).1.parkingSpots j2 ≠ expiredWorld.parkingSpots j2 →
        j1 = j2 :=
  have h := reachable_cell expiredWorld reachable_expiredWorld
  ⟨h.1, h.2,
    (click_changes_one_spot expiredWorld GLFW_MOUSE_BUTTON_LEFT GLFW_PRESS (2180 / 11)
      (2825 / 11) h.1 h.2).1⟩

/-! ## Leave by a click on the indicator -/

theorem clickSpot_leave (xpos ypos x y cellWidth cellHeight : ℚ) (g : RandStream)
    (spot : ParkingSpot) (ho : spot.occupied = true) (hb : spot.blinking = true)
    (hin : inIndicator xpos ypos x y cellHeight) :
    clickSpot xpos ypos x y cellWidth cellHeight spot
      = ((handleSpot GLFW_MOD_CONTROL g spot).1, (handleSpot GLFW_MOD_CONTROL g spot).2.2)
    ∧ (handleSpot GLFW_MOD_CONTROL g spot).2.2 = [SoundCue.leavingSound]
    ∧ (handleSpot GLFW_MOD_CONTROL g spot).2.1 = g := by
  have hc : GLFW_MOD_CONTROL ≠ GLFW_MOD_SHIFT := by decide
  have hcond : spot.blinking = true ∧
      (xpos - (x - parkingSpotDistance + 10)) ^ 2 + (ypos - (y + cellHeight / 2 - 35)) ^ 2
        ≤ (37 : ℚ) ^ 2 := ⟨hb, hin⟩
  have hclick : clickSpot xpos ypos x y cellWidth cellHeight spot
      = ({ spot with
            occupied := false
            blinking := false
            timer := 0
            timerSound := true
            redProgress := 0
            licensePlate := ""
            showInfo := false }, [SoundCue.leavingSound]) := by
    unfold clickSpot
    simp only []
    rw [if_pos hcond]
  have hkey : handleSpot GLFW_MOD_CONTROL g spot
      = ({ spot with
            occupied := false
            timer := 0
            timerSound := true
            redProgress := 0
            blinking := false
            licensePlate := ""
            showInfo := false }, g, [SoundCue.leavingSound]) := by
    unfold handleSpot
    rw [if_neg (by simp [ho]), if_neg (by simp [hc]), if_pos ⟨ho, rfl⟩]
  rw [hclick, hkey]
  exact ⟨rfl, rfl, rfl⟩

theorem flatten_only {ι β : Type} (f : ι → List β) (p : ι) :
    ∀ l : List ι, l.Nodup → p ∈ l → (∀ q ∈ l, q ≠ p → f q = []) →
      (l.map f).flatten = f p := by
  intro l
  induction l with
  | nil => intro _ hp; simp at hp
  | cons i l ih =>
    intro hl hp hq
    rw [List.nodup_cons] at hl
    simp only [List.map_cons, List.flatten_cons]
    rcases List.mem_cons.mp hp with rfl | hp'
    · have hrest : (l.map f).flatten = [] := by
        rw [List.flatten_eq_nil_iff]
        intro x hx
        obtain ⟨q, hql, rfl⟩ := List.mem_map.mp hx
        exact hq q (List.mem_cons_of_mem _ hql) (fun h => hl.1 (h ▸ hql))
      rw [hrest, List.append_nil]
    · have hip : i ≠ p := fun h => hl.1 (h ▸ hp')
      rw [hq i (List.mem_cons_self _ _) hip, List.nil_append]
      exact ih hl.2 hp' (fun q hql => hq q (List.mem_cons_of_mem _ hql))

theorem gridOrder_nodup' : gridOrder.Nodup := by decide

theorem spotIndex_injective :
    ∀ (r1 r2 : Fin ROWS) (c1 c2 : Fin COLUMNS),
      spotIndex r1 c1 = spotIndex r2 c2 → r1 = r2 ∧ c1 = c2 := by
  decide

/-- C14: for a spot that is occupied and blinking, the left click inside its indicator
circle leaves the spot in exactly the state the Leave with Control leaves it in, and the
loop body plays the same sound; with the cell dimensions of the program the two calls
return the same globals and the same list of sounds altogether. -/
theorem click_leave_eq_control_leave (w : World) (row : Fin ROWS) (col : Fin COLUMNS)
    (xpos ypos : ℚ)
    (ho : (w.parkingSpots (spotIndex row col)).occupied = true)
    (hb : (w.parkingSpots (spotIndex row col)).blinking = true)
    (hin : inIndicator xpos ((w.HEIGHT : ℚ) - ypos) (spotX w col) (spotY w row)
      w.CELL_HEIGHT) :
    (mouseButtonCallback GLFW_MOUSE_BUTTON_LEFT GLFW_PRESS xpos ypos w).1.parkingSpots
        (spotIndex row col)
      = (handleParkingSpotEvent row col GLFW_MOD_CONTROL w).1.parkingSpots (spotIndex row col)
    ∧ (clickSpot xpos ((w.HEIGHT : ℚ) - ypos) (spotX w col) (spotY w row) w.CELL_WIDTH
        w.CELL_HEIGHT (w.parkingSpots (spotIndex row col))).2
      = (handleParkingSpotEvent row col GLFW_MOD_CONTROL w).2
    ∧ (handleParkingSpotEvent row col GLFW_MOD_CONTROL w).2 = [SoundCue.leavingSound]
    ∧ (w.CELL_WIDTH = (1400 : ℚ) / (11 / 2) →
        w.CELL_HEIGHT = (1400 : ℚ) / (11 / 2) * (7 / 5) →
        mouseButtonCallback GLFW_MOUSE_BUTTON_LEFT GLFW_PRESS xpos ypos w
          = handleParkingSpotEvent row col GLFW_MOD_CONTROL w) := by
  obtain ⟨k1, k2, k3⟩ := clickSpot_leave xpos ((w.HEIGHT : ℚ) - ypos) (spotX w col)
    (spotY w row) w.CELL_WIDTH w.CELL_HEIGHT w.randState _ ho hb hin
  have hspot : (mouseButtonCallback GLFW_MOUSE_BUTTON_LEFT GLFW_PRESS xpos ypos
      w).1.parkingSpots (spotIndex row col)
      = (handleParkingSpotEvent row col GLFW_MOD_CONTROL w).1.parkingSpots
          (spotIndex row col) := by
    rw [mouseButtonCallback_spot, if_pos ⟨rfl, rfl⟩, handleParkingSpotEvent_spot, k1]
  refine ⟨hspot, ?_, ?_, ?_⟩
  · rw [handleParkingSpotEvent_cues, k1]
  · rw [handleParkingSpotEvent_cues, k2]
  · intro hcw hch
    have hother : ∀ (r : Fin ROWS) (c : Fin COLUMNS), (r, c) ≠ (row, col) →
        clickSpot xpos ((w.HEIGHT : ℚ) - ypos) (spotX w c) (spotY w r) w.CELL_WIDTH
          w.CELL_HEIGHT (w.parkingSpots (spotIndex r c))
        = (w.parkingSpots (spotIndex r c), []) := by
      intro r c hne
      apply clickSpot_changes
      intro hhit
      obtain ⟨hr, hc⟩ := hitsSpot_unique w xpos _ hcw hch r row c col hhit (Or.inl hin)
      exact hne (by rw [hr, hc])
    have hspots : (mouseButtonCallback GLFW_MOUSE_BUTTON_LEFT GLFW_PRESS xpos ypos
        w).1.parkingSpots = (handleParkingSpotEvent row col GLFW_MOD_CONTROL w).1.parkingSpots := by
      funext j
      by_cases hj : j = spotIndex row col
      · rw [hj]; exact hspot
      · obtain ⟨r, c, rfl⟩ := spotIndex_surj j
        have hne : (r, c) ≠ (row, col) := by
          intro h
          apply hj
          rw [(Prod.mk.inj h).1, (Prod.mk.inj h).2]
        rw [mouseButtonCallback_spot, if_pos ⟨rfl, rfl⟩, hother r c hne,
          handleParkingSpotEvent_other _ _ _ _ _ hj]
    have hcues : (mouseButtonCallback GLFW_MOUSE_BUTTON_LEFT GLFW_PRESS xpos ypos w).2
        = (handleParkingSpotEvent row col GLFW_MOD_CONTROL w).2 := by
      have hm : (mouseButtonCallback GLFW_MOUSE_BUTTON_LEFT GLFW_PRESS xpos ypos w).2
          = (forEachSpot (fun r c spot =>
              clickSpot xpos ((w.HEIGHT : ℚ) - ypos) (spotX w c) (spotY w r) w.CELL_WIDTH
                w.CELL_HEIGHT spot) w.parkingSpots).2 := by
        unfold mouseButtonCallback
        rw [if_pos ⟨rfl, rfl⟩]
      rw [hm, forEachSpot_snd,
        flatten_only _ (row, col) gridOrder gridOrder_nodup' (mem_gridOrder row col)
          (fun q _ hq => by
            have := hother q.1 q.2 hq
            simp only [this]),
        handleParkingSpotEvent_cues, k1]
    have hrest : (mouseButtonCallback GLFW_MOUSE_BUTTON_LEFT GLFW_PRESS xpos ypos w).1
        = { w with
            parkingSpots := (mouseButtonCallback GLFW_MOUSE_BUTTON_LEFT GLFW_PRESS xpos ypos
              w).1.parkingSpots } := by
      unfold mouseButtonCallback
      rw [if_pos ⟨rfl, rfl⟩]
    have hkeyw : (handleParkingSpotEvent row col GLFW_MOD_CONTROL w).1
        = { w with
            parkingSpots := (handleParkingSpotEvent row col GLFW_MOD_CONTROL w).1.parkingSpots } := by
      simp only [handleParkingSpotEvent, k3]
    apply Prod.ext
    · rw [hrest, hkeyw, hspots]
    · exact hcues

/-- Witness of C14: the expired A1 and the click on the centre of its indicator. -/
theorem click_leave_eq_control_leave_witness :
    (expiredWorld.parkingSpots (spotIndex 0 0)).occupied = true
      ∧ (expiredWorld.parkingSpots (spotIndex 0 0)).blinking = true
      ∧ inIndicator (2180 / 11) ((expiredWorld.HEIGHT : ℚ) - 2825 / 11)
          (spotX expiredWorld 0) (spotY expiredWorld 0) expiredWorld.CELL_HEIGHT
      ∧ mouseButtonCallback GLFW_MOUSE_BUTTON_LEFT GLFW_PRESS (2180 / 11) (2825 / 11)
          expiredWorld
        = handleParkingSpotEvent 0 0 GLFW_MOD_CONTROL expiredWorld :=
  have e : spotIndex 0 0 = 0 := rfl
  have ho : (expiredWorld.parkingSpots (spotIndex 0 0)).occupied = true := by
    rw [e, expiredWorld_spot]; rfl
  have hb : (expiredWorld.parkingSpots (spotIndex 0 0)).blinking = true := by
    rw [e, expiredWorld_spot]
  have hin : inIndicator (2180 / 11) ((expiredWorld.HEIGHT : ℚ) - 2825 / 11)
      (spotX expiredWorld 0) (spotY expiredWorld 0) expiredWorld.CELL_HEIGHT := by
    obtain ⟨-, h2, -, h4⟩ := expiredWorld_viewport
    obtain ⟨hx, hy⟩ := expiredWorld_corner
    rw [hx, hy, h2, h4]
    unfold inIndicator parkingSpotDistance
    norm_num
  have hc := reachable_cell expiredWorld reachable_expiredWorld
  ⟨ho, hb, hin,
    (click_leave_eq_control_leave expiredWorld 0 0 (2180 / 11) (2825 / 11) ho hb hin).2.2.2
      hc.1 hc.2⟩


/-! ## The licence plate -/

theorem letter_isUpper : ∀ k : Fin 26, (Char.ofNat (k.val + 'A'.toNat)).isUpper = true := by
  decide

theorem digit_string :
    ∀ k : Fin 10, (toString k.val).data = [Char.ofNat (k.val + '0'.toNat)]
      ∧ (Char.ofNat (k.val + '0'.toNat)).isDigit = true := by
  decide

/-- C16: whatever `rand()` returns, `generateLicensePlate` returns nine characters of the
form `LL DDD-LL`: two letters `A` to `Z`, a space, three decimal digits, a hyphen and two
letters `A` to `Z`. -/
theorem licensePlate_pattern (g : RandStream) :
    (generateLicensePlate g).1.length = 9
    ∧ ∃ a b d0 d1 d2 e f : Char,
      (generateLicensePlate g).1.data = [a, b, ' ', d0, d1, d2, '-', e, f]
      ∧ a.isUpper = true ∧ b.isUpper = true
      ∧ d0.isDigit = true ∧ d1.isDigit = true ∧ d2.isDigit = true
      ∧ e.isUpper = true ∧ f.isUpper = true := by
  have hl : ∀ n : Nat, (Char.ofNat (n % 26 + 'A'.toNat)).isUpper = true :=
    fun n => letter_isUpper ⟨n % 26, Nat.mod_lt _ (by norm_num)⟩
  have hd : ∀ n : Nat, (toString (n % 10)).data = [Char.ofNat (n % 10 + '0'.toNat)]
      ∧ (Char.ofNat (n % 10 + '0'.toNat)).isDigit = true :=
    fun n => digit_string ⟨n % 10, Nat.mod_lt _ (by norm_num)⟩
  have hdata : (generateLicensePlate g).1.data
      = [Char.ofNat ((g 0).val % 26 + 'A'.toNat), Char.ofNat ((g 1).val % 26 + 'A'.toNat), ' ',
         Char.ofNat ((g 2).val % 10 + '0'.toNat), Char.ofNat ((g 3).val % 10 + '0'.toNat),
         Char.ofNat ((g 4).val % 10 + '0'.toNat), '-',
         Char.ofNat ((g 5).val % 26 + 'A'.toNat), Char.ofNat ((g 6).val % 26 + 'A'.toNat)] := by
    simp only [generateLicensePlate, appendLetters, appendDigits, rand, String.data_push,
      String.data_append, (hd _).1]
    rfl
  refine ⟨?_, _, _, _, _, _, _, _, hdata, hl _, hl _, (hd _).2, (hd _).2, (hd _).2, hl _, hl _⟩
  rw [String.length, hdata]
  rfl

/-! ## The timer arc -/

theorem loopIndices_eq (limit : ℚ) :
    ∀ (n : Nat) (i : Int), (⌊limit⌋ + 1 - i).toNat = n →
      loopIndices limit i = (List.range n).map (fun (k : Nat) => i + (k : Int)) := by
  intro n
  induction n with
  | zero =>
    intro i h
    have hlt : ⌊limit⌋ < i := by omega
    have hn : ¬ ((i : ℚ) ≤ limit) := fun hc => absurd (Int.le_floor.mpr hc) (by omega)
    rw [loopIndices, if_neg hn]
    rfl
  | succ n ih =>
    intro i h
    have hle : i ≤ ⌊limit⌋ := by omega
    have hp : (i : ℚ) ≤ limit := Int.le_floor.mp hle
    rw [loopIndices, if_pos hp, ih (i + 1) (by omega), List.range_succ_eq_map]
    simp only [List.map_cons, List.map_map, Nat.cast_zero, add_zero, List.cons.injEq, true_and]
    apply List.map_congr_left
    intro k _
    simp only [Function.comp, Nat.succ_eq_add_one, Nat.cast_add, Nat.cast_one]
    ring

theorem loopIndices_length (limit : ℚ) (i : Int) :
    (loopIndices limit i).length = (⌊limit⌋ + 1 - i).toNat := by
  rw [loopIndices_eq limit _ i rfl]
  simp

theorem truncate_of_nonneg (q : ℚ) (h : 0 ≤ q) : truncate q = ⌊q⌋ := by
  unfold truncate
  rw [if_pos h]

/-- What `drawParkingSpotTimer` does for a progress `p` in `[0, 1]`, with
`k = floor(1000 * (1 - p))`: it pushes the green centre and the rim points `0 .. k`, then
the red centre and the rim points `k .. 1000`; the first call draws `k + 2` vertices from
offset 0; the second call starts at offset `k + 2` and draws `1002 - k` vertices when
`1000 * (1 - p)` is a whole number, and `1001 - k` vertices otherwise. -/
theorem drawParkingSpotTimer_spec (cx cy r p : ℚ) (h0 : 0 ≤ p) (h1 : p ≤ 1) :
    (drawParkingSpotTimer cx cy r p).1
      = ({ pos := Position.centre cx cy, r := 0, g := 1, b := 0, a := 1 } ::
          (List.range (⌊1000 * (1 - p)⌋.toNat + 1)).map
            (fun (i : Nat) => { pos := Position.rim cx cy r (i : Int), r := 0, g := 1, b := 0, a := 1 }))
        ++ ({ pos := Position.centre cx cy, r := 1, g := 0, b := 0, a := 1 } ::
          (List.range (1001 - ⌊1000 * (1 - p)⌋.toNat)).map
            (fun (i : Nat) =>
              { pos := Position.rim cx cy r (⌊1000 * (1 - p)⌋ + (i : Int)), r := 1, g := 0,
                b := 0, a := 1 }))
    ∧ (drawParkingSpotTimer cx cy r p).2
      = [{ first := 0, count := ⌊1000 * (1 - p)⌋ + 2 },
         { first := ⌊1000 * (1 - p)⌋ + 2
           count := if (⌊1000 * (1 - p)⌋ : ℚ) = 1000 * (1 - p) then 1002 - ⌊1000 * (1 - p)⌋
                    else 1001 - ⌊1000 * (1 - p)⌋ }] := by
  have hq0 : (0 : ℚ) ≤ 1000 * (1 - p) := by nlinarith
  have hq1 : 1000 * (1 - p) ≤ 1000 := by nlinarith
  have hk0 : 0 ≤ ⌊1000 * (1 - p)⌋ := Int.floor_nonneg.mpr hq0
  have hk1 : ⌊1000 * (1 - p)⌋ ≤ 1000 := by
    have : ⌊1000 * (1 - p)⌋ ≤ ⌊(1000 : ℚ)⌋ := Int.floor_mono hq1
    simpa using this
  have hfl1000 : ⌊(1000 : ℚ)⌋ = 1000 := by
    have : ⌊((1000 : Int) : ℚ)⌋ = 1000 := Int.floor_intCast _
    exact this
  have hgreen : loopIndices ((1000 : Int) * (1 - p)) 0
      = (List.range (⌊1000 * (1 - p)⌋.toNat + 1)).map (fun (k : Nat) => (k : Int)) := by
    rw [loopIndices_eq _ (⌊1000 * (1 - p)⌋.toNat + 1) 0
      (by push_cast; omega)]
    apply List.map_congr_left
    intro k _
    simp
  have hred : loopIndices ((1000 : Int) : ℚ) (truncate ((1000 : Int) * (1 - p)))
      = (List.range (1001 - ⌊1000 * (1 - p)⌋.toNat)).map
          (fun (k : Nat) => ⌊1000 * (1 - p)⌋ + (k : Int)) := by
    rw [truncate_of_nonneg _ (by push_cast; exact hq0)]
    push_cast
    rw [loopIndices_eq _ (1001 - ⌊1000 * (1 - p)⌋.toNat) _ (by rw [hfl1000]; omega)]
  have hc1 : truncate ((1000 : Int) * (1 - p) + 2) = ⌊1000 * (1 - p)⌋ + 2 := by
    rw [truncate_of_nonneg _ (by push_cast; linarith)]
    push_cast
    exact Int.floor_add_nat _ 2
  have hc2 : truncate (((1000 : Int) : ℚ) - (1000 : Int) * (1 - p) + 2)
      = if (⌊1000 * (1 - p)⌋ : ℚ) = 1000 * (1 - p) then 1002 - ⌊1000 * (1 - p)⌋
        else 1001 - ⌊1000 * (1 - p)⌋ := by
    rw [truncate_of_nonneg _ (by push_cast; linarith)]
    push_cast
    have hfl := Int.floor_le (1000 * (1 - p))
    have hlt := Int.lt_floor_add_one (1000 * (1 - p))
    split_ifs with hint
    · rw [Int.floor_eq_iff]
      push_cast
      constructor <;> linarith
    · have hne : (⌊1000 * (1 - p)⌋ : ℚ) < 1000 * (1 - p) := lt_of_le_of_ne hfl hint
      rw [Int.floor_eq_iff]
      push_cast
      constructor <;> linarith
  constructor
  · simp only [drawParkingSpotTimer, hgreen, hred, List.nil_append, List.map_map,
      List.singleton_append, List.append_assoc]
    rfl
  · simp only [drawParkingSpotTimer, hc1, hc2]


theorem floor_sample : ⌊(1000 : ℚ) * (1 - 1 / 2000)⌋ = 999 := by
  rw [Int.floor_eq_iff]
  norm_num

/-- C17, the code at the failing input: one hundredth of a second after Park the spot A1
has `redProgress = 1 / 2000` and does not blink, so `render` draws its timer with this
value.  Then `1000 * (1 - p) = 999.5` and `k = 999`: the buffer holds 1004 vertices, the
red fan in it is the red centre and the rim points 999 and 1000 (three vertices, as the
claim says), but the second draw call has count 2 and reads the red centre and the rim
point 999 only, so the segment from 999 to 1000 is not drawn. -/
theorem timer_red_fan_cut_short :
    ((update (1 / 100) parkedWorld).1.parkingSpots 0).redProgress = 1 / 2000
    ∧ ((update (1 / 100) parkedWorld).1.parkingSpots 0).blinking = false
    ∧ (drawParkingSpotTimer 0 0 35 (1 / 2000)).1.length = 1004
    ∧ (drawParkingSpotTimer 0 0 35 (1 / 2000)).1.drop 1001
        = [{ pos := Position.centre 0 0, r := 1, g := 0, b := 0, a := 1 },
           { pos := Position.rim 0 0 35 999, r := 1, g := 0, b := 0, a := 1 },
           { pos := Position.rim 0 0 35 1000, r := 1, g := 0, b := 0, a := 1 }]
    ∧ (drawParkingSpotTimer 0 0 35 (1 / 2000)).2
        = [{ first := 0, count := 1001 }, { first := 1001, count := 2 }]
    ∧ drawn (drawParkingSpotTimer 0 0 35 (1 / 2000)).1 { first := 1001, count := 2 }
        = [{ pos := Position.centre 0 0, r := 1, g := 0, b := 0, a := 1 },
           { pos := Position.rim 0 0 35 999, r := 1, g := 0, b := 0, a := 1 }] := by
  obtain ⟨hv, hd⟩ := drawParkingSpotTimer_spec 0 0 35 (1 / 2000) (by norm_num) (by norm_num)
  rw [floor_sample] at hv hd
  have hgreen : (({ pos := Position.centre 0 0, r := 0, g := 1, b := 0, a := 1 } : Vertex) ::
      (List.range ((999 : Int).toNat + 1)).map
        (fun (i : Nat) => ({ pos := Position.rim 0 0 35 (i : Int), r := 0, g := 1, b := 0,
                             a := 1 } : Vertex))).length = 1001 := by
    simp
  have hred : (List.range (1001 - (999 : Int).toNat)).map
      (fun (i : Nat) =>
        ({ pos := Position.rim 0 0 35 (999 + (i : Int)), r := 1, g := 0, b := 0,
           a := 1 } : Vertex))
      = [{ pos := Position.rim 0 0 35 999, r := 1, g := 0, b := 0, a := 1 },
         { pos := Position.rim 0 0 35 1000, r := 1, g := 0, b := 0, a := 1 }] := by
    have h2 : 1001 - (999 : Int).toNat = 2 := by decide
    rw [h2]
    simp [List.range_succ]
  have hdrop : (drawParkingSpotTimer 0 0 35 (1 / 2000)).1.drop 1001
      = [{ pos := Position.centre 0 0, r := 1, g := 0, b := 0, a := 1 },
         { pos := Position.rim 0 0 35 999, r := 1, g := 0, b := 0, a := 1 },
         { pos := Position.rim 0 0 35 1000, r := 1, g := 0, b := 0, a := 1 }] := by
    rw [hv, List.drop_left' hgreen, hred]
  refine ⟨?_, ?_, ?_, hdrop, ?_, ?_⟩
  · rw [update_spot, parkedWorld_spot]
    simp [updateSpot, parkedSpot]
    norm_num
  · rw [update_spot, parkedWorld_spot]
    simp [updateSpot, parkedSpot]
    norm_num
  · rw [hv, List.length_append, hgreen, hred]
    rfl
  · rw [hd]
    norm_num
  · unfold drawn
    show ((drawParkingSpotTimer 0 0 35 (1 / 2000)).1.drop 1001).take 2 = _
    rw [hdrop]
    rfl

/-! ## Text metrics -/

theorem charactersAt_advance (m : CharacterMap) (c : Char) :
    (charactersAt m c).1.Advance = glyphAdvance m c := by
  unfold charactersAt glyphAdvance
  cases m c <;> rfl

theorem charactersAt_glyphAdvance (m : CharacterMap) (c c' : Char) :
    glyphAdvance (charactersAt m c).2 c' = glyphAdvance m c' := by
  unfold charactersAt
  cases hm : m c with
  | some ch => rfl
  | none =>
    simp only []
    unfold glyphAdvance
    by_cases hc : c' = c
    · subst hc
      simp [hm]
    · simp [Function.update_noteq hc]

theorem measure_foldl (scale : ℚ) :
    ∀ (l : List Char) (acc : ℚ) (m : CharacterMap),
      (l.foldl
        (fun (acc : ℚ × CharacterMap) c =>
          ((acc.1 + (((charactersAt acc.2 c).1.Advance >>> 6 : Nat) : ℚ) * scale),
            (charactersAt acc.2 c).2))
        (acc, m)).1
        = acc + (l.map (fun c => ((glyphAdvance m c >>> 6 : Nat) : ℚ) * scale)).sum := by
  intro l
  induction l with
  | nil => intro acc m; simp
  | cons c l ih =>
    intro acc m
    rw [List.foldl_cons, ih]
    have hmap : l.map (fun c' => ((glyphAdvance (charactersAt m c).2 c' >>> 6 : Nat) : ℚ) * scale)
        = l.map (fun c' => ((glyphAdvance m c' >>> 6 : Nat) : ℚ) * scale) := by
      apply List.map_congr_left
      intro c' _
      rw [charactersAt_glyphAdvance]
    rw [hmap, charactersAt_advance, List.map_cons, List.sum_cons]
    ring

theorem measureTextWidth_eq (t : String) (k : ℚ) (m : CharacterMap) :
    (measureTextWidth t k m).1
      = (t.data.map (fun c => ((glyphAdvance m c >>> 6 : Nat) : ℚ) * k)).sum := by
  have h := measure_foldl k t.data 0 m
  rw [zero_add] at h
  exact h

/-- C18: `measureTextWidth(s, scale)` is the sum over the characters `c` of `s` of
`(advance(c) >> 6) * scale`, where a character without a glyph record has advance 0 and
so adds nothing; with scale 1 it is the sum of the advances in pixels, and it is 0 for the
empty string. -/
theorem measureTextWidth_sum (s : String) (scale : ℚ) (m : CharacterMap) :
    (measureTextWidth s scale m).1
      = (s.data.map (fun c => ((glyphAdvance m c >>> 6 : Nat) : ℚ) * scale)).sum
    ∧ (measureTextWidth s 1 m).1
      = (((s.data.map (fun c => glyphAdvance m c >>> 6)).sum : Nat) : ℚ)
    ∧ (measureTextWidth "" scale m).1 = 0
    ∧ (∀ c : Char, m c = none →
        glyphAdvance m c = 0 ∧ (measureTextWidth (String.singleton c) scale m).1 = 0) := by
  have hsum : ∀ (t : String) (k : ℚ), (measureTextWidth t k m).1
      = (t.data.map (fun c => ((glyphAdvance m c >>> 6 : Nat) : ℚ) * k)).sum :=
    fun t k => measureTextWidth_eq t k m
  refine ⟨hsum s scale, ?_, ?_, ?_⟩
  · rw [hsum s 1]
    induction s.data with
    | nil => simp
    | cons c l ih =>
      simp only [List.map_cons, List.sum_cons, mul_one, Nat.cast_add] at ih ⊢
      rw [ih]
  · rw [hsum]
    rfl
  · intro c hc
    have h0 : glyphAdvance m c = 0 := by
      unfold glyphAdvance
      rw [hc]
    refine ⟨h0, ?_⟩
    rw [hsum]
    show ([c].map (fun c => ((glyphAdvance m c >>> 6 : Nat) : ℚ) * scale)).sum = 0
    simp [h0]

/-- A sample: `A` advances 10 pixels, `B` 7 pixels (480 / 64, rounded down), and `?` has
no glyph record; at scale 2 the text `AB?` is 34 wide. -/
theorem measureTextWidth_sample : (measureTextWidth "AB?" 2 sampleGlyphs).1 = 34 := by
  rw [measureTextWidth_eq "AB?" 2 sampleGlyphs]
  show ((glyphAdvance sampleGlyphs 'A' >>> 6 : Nat) : ℚ) * 2
    + (((glyphAdvance sampleGlyphs 'B' >>> 6 : Nat) : ℚ) * 2
    + (((glyphAdvance sampleGlyphs '?' >>> 6 : Nat) : ℚ) * 2 + 0)) = 34
  have hA : glyphAdvance sampleGlyphs 'A' >>> 6 = 10 := by decide
  have hB : glyphAdvance sampleGlyphs 'B' >>> 6 = 7 := by decide
  have hQ : glyphAdvance sampleGlyphs '?' >>> 6 = 0 := by decide
  rw [hA, hB, hQ]
  norm_num


/-! ## Samples for the title animation and the text metrics -/

/-- Witness of C12: the initial title state and a tick of three seconds; the stepped
progress reaches 1, so it is clamped to 1 and the direction is reversed. -/
theorem title_progress_clamped_witness :
    (if world0.reverseTransition = true then
        world0.titleTextTransitionProgress - 3 / titleTransitionDuration
      else world0.titleTextTransitionProgress + 3 / titleTransitionDuration) ≥ 1
    ∧ (update 3 world0).1.titleTextTransitionProgress = 1
    ∧ (update 3 world0).1.reverseTransition = true :=
  have hstep : (if world0.reverseTransition = true then
        world0.titleTextTransitionProgress - 3 / titleTransitionDuration
      else world0.titleTextTransitionProgress + 3 / titleTransitionDuration) ≥ 1 := by
    show (if false = true then (0 : ℚ) - 3 / 3 else 0 + 3 / 3) ≥ 1
    norm_num
  ⟨hstep, (title_progress_clamped world0 3).2.1 hstep⟩

/-- Witness of C18: `?` has no glyph record in the sample table, so the text `?` has
width 0 at scale 2. -/
theorem measureTextWidth_sum_witness :
    sampleGlyphs '?' = none
    ∧ (measureTextWidth (String.singleton '?') 2 sampleGlyphs).1 = 0 :=
  ⟨by decide, ((measureTextWidth_sum "" 2 sampleGlyphs).2.2.2 '?' (by decide)).2⟩


end ProjectParking
